import Mathlib

/-!
# Verification of the procedural sprite synthesis engine

Shallow embedding of `scripts/generate_sprites.py`: the color model,
the RGBA canvas with its drawing primitives, the nine pathogen drawers,
the medicine compositor and the world tile generators, together with
proofs of the behavioural properties claimed for them.

Modelling conventions:
* An RGBA image is a total function `ℤ → ℤ → Pixel`; pixels hold byte
  channel values as `ℕ`.  Drawing primitives write only inside the
  `512×512` canvas (the Pillow library clips all rasterisation to the
  image), so out-of-range coordinates keep their previous value.
* Python `float` quantities are modelled exactly as `ℚ`; the
  transcendental functions of the `math` module (`pi`, `cos`, `sin`,
  `radians`) are an opaque parameter (`FloatLib`), because no claim
  depends on their values.
* Python's global `random` generator is modelled as explicit state
  (`Rng`) threaded through the grain-noise pass; `random.seed`
  replaces the state, `random.randint` is a concrete deterministic
  step function (a stand-in for the library's Mersenne twister — the
  claims depend only on the generator being a deterministic function
  of its state).
* `int(...)` is Python truncation toward zero (`pyInt`).
-/

/-! ## Pixels, colors, canvases -/

@[ext]
structure Pixel where
  r : ℕ
  g : ℕ
  b : ℕ
  a : ℕ
  deriving DecidableEq, Repr

@[ext]
structure RGB where
  r : ℤ
  g : ℤ
  b : ℤ
  deriving DecidableEq, Repr

/-- A canvas: RGBA pixel value at every integer coordinate.  Only the
`[0,512) × [0,512)` region is the real image; primitives never write
outside it. -/
abbrev Canvas := ℤ → ℤ → Pixel

def blankPixel : Pixel := ⟨0, 0, 0, 0⟩

/-- `new_canvas()`: a fully transparent RGBA canvas (line 87). -/
def new_canvas : Canvas := fun _ _ => blankPixel

/-- The supersampled draw size (`SIZE = 512`). -/
def SIZE : ℚ := 512

def inBounds (x y : ℤ) : Prop := 0 ≤ x ∧ x < 512 ∧ 0 ≤ y ∧ y < 512

instance (x y : ℤ) : Decidable (inBounds x y) := by
  unfold inBounds; infer_instance

/-- Python `int(...)`: truncation toward zero. -/
def pyInt (q : ℚ) : ℤ := if 0 ≤ q then ⌊q⌋ else -⌊-q⌋

/-! ## Color model (lines 97-119) -/

/-- `lighten(color, amount)` (lines 97-104). -/
def lighten (color : RGB) (amount : ℚ) : RGB :=
  ⟨min 255 (pyInt ((color.r : ℚ) + (255 - (color.r : ℚ)) * amount)),
   min 255 (pyInt ((color.g : ℚ) + (255 - (color.g : ℚ)) * amount)),
   min 255 (pyInt ((color.b : ℚ) + (255 - (color.b : ℚ)) * amount))⟩

/-- `darken(color, amount)` (lines 107-114). -/
def darken (color : RGB) (amount : ℚ) : RGB :=
  ⟨max 0 (pyInt ((color.r : ℚ) * (1 - amount))),
   max 0 (pyInt ((color.g : ℚ) * (1 - amount))),
   max 0 (pyInt ((color.b : ℚ) * (1 - amount)))⟩

/-- `with_alpha(color, alpha)` (lines 117-119), combined with the byte
storage of the RGBA image: channels are stored as natural byte values. -/
def px (color : RGB) (alpha : ℕ) : Pixel :=
  ⟨color.r.toNat, color.g.toNat, color.b.toNat, alpha⟩

/-! ## Rasterisation primitives

Pillow's `ImageDraw` primitives, modelled as coverage predicates over
pixel coordinates.  Box coordinates are inclusive of both endpoints
(Pillow documents `rectangle`/`ellipse` bounding boxes as inclusive).
Drawing replaces the covered pixels with the given RGBA value (the
default `ImageDraw` mode writes the ink directly, it does not blend),
clipped to the canvas. -/

def rectCoversB (x0 y0 x1 y1 : ℚ) (x y : ℤ) : Bool :=
  decide (x0 ≤ (x : ℚ) ∧ (x : ℚ) ≤ x1 ∧ y0 ≤ (y : ℚ) ∧ (y : ℚ) ≤ y1)

def ellipseCoversB (x0 y0 x1 y1 : ℚ) (x y : ℤ) : Bool :=
  let cx := (x0 + x1) / 2
  let cy := (y0 + y1) / 2
  let rx := (x1 - x0) / 2
  let ry := (y1 - y0) / 2
  decide ((((x : ℚ) - cx) * ry) ^ 2 + (((y : ℚ) - cy) * rx) ^ 2 ≤ (rx * ry) ^ 2)

def rectOutlineCoversB (x0 y0 x1 y1 w : ℚ) (x y : ℤ) : Bool :=
  rectCoversB x0 y0 x1 y1 x y && !(rectCoversB (x0 + w) (y0 + w) (x1 - w) (y1 - w) x y)

def ellipseOutlineCoversB (x0 y0 x1 y1 w : ℚ) (x y : ℤ) : Bool :=
  ellipseCoversB x0 y0 x1 y1 x y && !(ellipseCoversB (x0 + w) (y0 + w) (x1 - w) (y1 - w) x y)

/-- A line segment of the given stroke width covers the pixels whose
centers are within half the width of the segment. -/
def segCoversB (p1x p1y p2x p2y w : ℚ) (x y : ℤ) : Bool :=
  let dx := p2x - p1x
  let dy := p2y - p1y
  let len2 := dx ^ 2 + dy ^ 2
  let qx := (x : ℚ) - p1x
  let qy := (y : ℚ) - p1y
  if len2 = 0 then
    decide (qx ^ 2 + qy ^ 2 ≤ (w / 2) ^ 2)
  else
    let t := max 0 (min 1 ((qx * dx + qy * dy) / len2))
    decide ((qx - t * dx) ^ 2 + (qy - t * dy) ^ 2 ≤ (w / 2) ^ 2)

/-- `ImageDraw.line` with a list of points: the chain of thick segments. -/
def polylineCoversB (pts : List (ℚ × ℚ)) (w : ℚ) (x y : ℤ) : Bool :=
  (pts.zip pts.tail).any fun e => segCoversB e.1.1 e.1.2 e.2.1 e.2.2 w x y

/-- The cyclic edge list of a polygon. -/
def cycleEdges (pts : List (ℚ × ℚ)) : List ((ℚ × ℚ) × (ℚ × ℚ)) :=
  match pts with
  | [] => []
  | p :: rest => pts.zip (rest ++ [p])

def edgeCrossesB (p q : ℚ × ℚ) (x y : ℤ) : Bool :=
  decide (((p.2 ≤ (y : ℚ) ∧ (y : ℚ) < q.2) ∨ (q.2 ≤ (y : ℚ) ∧ (y : ℚ) < p.2)) ∧
    (x : ℚ) < p.1 + ((y : ℚ) - p.2) * (q.1 - p.1) / (q.2 - p.2))

/-- Filled polygon: even-odd rule (parity of ray crossings). -/
def polygonCoversB (pts : List (ℚ × ℚ)) (x y : ℤ) : Bool :=
  ((cycleEdges pts).countP fun e => edgeCrossesB e.1 e.2 x y) % 2 == 1

def polygonOutlineCoversB (pts : List (ℚ × ℚ)) (w : ℚ) (x y : ℤ) : Bool :=
  (cycleEdges pts).any fun e => segCoversB e.1.1 e.1.2 e.2.1 e.2.2 w x y

def roundedRectCoversB (x0 y0 x1 y1 rad : ℚ) (x y : ℤ) : Bool :=
  decide ((x0 ≤ (x : ℚ) ∧ (x : ℚ) ≤ x1 ∧ y0 + rad ≤ (y : ℚ) ∧ (y : ℚ) ≤ y1 - rad) ∨
    (x0 + rad ≤ (x : ℚ) ∧ (x : ℚ) ≤ x1 - rad ∧ y0 ≤ (y : ℚ) ∧ (y : ℚ) ≤ y1) ∨
    ((x : ℚ) - (x0 + rad)) ^ 2 + ((y : ℚ) - (y0 + rad)) ^ 2 ≤ rad ^ 2 ∨
    ((x : ℚ) - (x1 - rad)) ^ 2 + ((y : ℚ) - (y0 + rad)) ^ 2 ≤ rad ^ 2 ∨
    ((x : ℚ) - (x0 + rad)) ^ 2 + ((y : ℚ) - (y1 - rad)) ^ 2 ≤ rad ^ 2 ∨
    ((x : ℚ) - (x1 - rad)) ^ 2 + ((y : ℚ) - (y1 - rad)) ^ 2 ≤ rad ^ 2)

/-- One primitive draw call issued to `ImageDraw`. -/
inductive DrawOp where
  | rect (x0 y0 x1 y1 : ℚ) (p : Pixel)
  | rectOutline (x0 y0 x1 y1 w : ℚ) (p : Pixel)
  | ellipse (x0 y0 x1 y1 : ℚ) (p : Pixel)
  | ellipseOutline (x0 y0 x1 y1 w : ℚ) (p : Pixel)
  | seg (p1x p1y p2x p2y w : ℚ) (p : Pixel)
  | polyline (pts : List (ℚ × ℚ)) (w : ℚ) (p : Pixel)
  | polygon (pts : List (ℚ × ℚ)) (p : Pixel)
  | polygonOutline (pts : List (ℚ × ℚ)) (w : ℚ) (p : Pixel)
  | roundedRect (x0 y0 x1 y1 rad : ℚ) (p : Pixel)
  | point (x y : ℤ) (p : Pixel)

/-- The ink of a draw call. -/
def DrawOp.pix : DrawOp → Pixel
  | .rect _ _ _ _ p => p
  | .rectOutline _ _ _ _ _ p => p
  | .ellipse _ _ _ _ p => p
  | .ellipseOutline _ _ _ _ _ p => p
  | .seg _ _ _ _ _ p => p
  | .polyline _ _ p => p
  | .polygon _ p => p
  | .polygonOutline _ _ p => p
  | .roundedRect _ _ _ _ _ p => p
  | .point _ _ p => p

/-- The set of pixel coordinates a draw call addresses (before clipping). -/
def DrawOp.coversB : DrawOp → ℤ → ℤ → Bool
  | .rect x0 y0 x1 y1 _, x, y => rectCoversB x0 y0 x1 y1 x y
  | .rectOutline x0 y0 x1 y1 w _, x, y => rectOutlineCoversB x0 y0 x1 y1 w x y
  | .ellipse x0 y0 x1 y1 _, x, y => ellipseCoversB x0 y0 x1 y1 x y
  | .ellipseOutline x0 y0 x1 y1 w _, x, y => ellipseOutlineCoversB x0 y0 x1 y1 w x y
  | .seg p1x p1y p2x p2y w _, x, y => segCoversB p1x p1y p2x p2y w x y
  | .polyline pts w _, x, y => polylineCoversB pts w x y
  | .polygon pts _, x, y => polygonCoversB pts x y
  | .polygonOutline pts w _, x, y => polygonOutlineCoversB pts w x y
  | .roundedRect x0 y0 x1 y1 rad _, x, y => roundedRectCoversB x0 y0 x1 y1 rad x y
  | .point px_ py_ _, x, y => decide (x = px_ ∧ y = py_)

/-- Execute one draw call: replace the covered pixels inside the canvas
bounds with the ink (Pillow clips all drawing to the image). -/
def applyOp (op : DrawOp) (c : Canvas) : Canvas :=
  fun x y => if inBounds x y ∧ op.coversB x y then op.pix else c x y

/-- Execute a sequence of draw calls in order. -/
def render (ops : List DrawOp) (c : Canvas) : Canvas :=
  ops.foldl (fun acc op => applyOp op acc) c

/-! ## Canvas-level compositing -/

/-- Standard "over" compositing of one source pixel onto a destination
pixel: `out = src·srcA + dst·(1-srcA)` per channel, alpha similarly
(the engine contract for `Image.alpha_composite`). -/
def overPix (src dst : Pixel) : Pixel :=
  ⟨(src.r * src.a + dst.r * (255 - src.a)) / 255,
   (src.g * src.a + dst.g * (255 - src.a)) / 255,
   (src.b * src.a + dst.b * (255 - src.a)) / 255,
   src.a + dst.a * (255 - src.a) / 255⟩

/-- `Image.alpha_composite(below, top)`: alpha-blend `top` over `below`
across the whole canvas. -/
def alphaCompositeCanvas (below top : Canvas) : Canvas :=
  fun x y => if inBounds x y then overPix (top x y) (below x y) else below x y

/-- `img.paste(pasted, (0,0), mask)`: per-pixel linear blend controlled
by the mask's alpha channel. -/
def pasteMasked (c pasted mask : Canvas) : Canvas :=
  fun x y =>
    if inBounds x y then
      let m := (mask x y).a
      ⟨((c x y).r * (255 - m) + (pasted x y).r * m) / 255,
       ((c x y).g * (255 - m) + (pasted x y).g * m) / 255,
       ((c x y).b * (255 - m) + (pasted x y).b * m) / 255,
       ((c x y).a * (255 - m) + (pasted x y).a * m) / 255⟩
    else c x y

/-- One horizontal box-blur pass of radius 12 (25-pixel window). -/
def boxBlurX (c : Canvas) : Canvas :=
  fun x y =>
    ⟨(∑ i ∈ Finset.range 25, (c (x + (i : ℤ) - 12) y).r) / 25,
     (∑ i ∈ Finset.range 25, (c (x + (i : ℤ) - 12) y).g) / 25,
     (∑ i ∈ Finset.range 25, (c (x + (i : ℤ) - 12) y).b) / 25,
     (∑ i ∈ Finset.range 25, (c (x + (i : ℤ) - 12) y).a) / 25⟩

/-- One vertical box-blur pass of radius 12. -/
def boxBlurY (c : Canvas) : Canvas :=
  fun x y =>
    ⟨(∑ i ∈ Finset.range 25, (c x (y + (i : ℤ) - 12)).r) / 25,
     (∑ i ∈ Finset.range 25, (c x (y + (i : ℤ) - 12)).g) / 25,
     (∑ i ∈ Finset.range 25, (c x (y + (i : ℤ) - 12)).b) / 25,
     (∑ i ∈ Finset.range 25, (c x (y + (i : ℤ) - 12)).a) / 25⟩

/-- `ImageFilter.GaussianBlur(radius=12)`, modelled as the library
implements it: repeated box blurs along each axis. -/
def gaussianBlur12 (c : Canvas) : Canvas :=
  boxBlurY (boxBlurY (boxBlurY (boxBlurX (boxBlurX (boxBlurX c)))))

/-- How the resampler rounds an accumulated weighted sum to an
integer: add one half, then floor. -/
def pyRound (q : ℚ) : ℤ := ⌊q + 1 / 2⌋

/-- Clamp a value into the byte range: `max(0, min(255, v))` (line 566;
also the resampler's byte clamp). -/
def clampChan (v : ℤ) : ℕ := (max 0 (min 255 v)).toNat

/-- Modelled from the library: the `Image.LANCZOS` filter coefficients
for the 2× downscale of `finalize` (line 94).  The windowed-sinc kernel
L(t) = sinc(t)·sinc(t/3) (zero for |t| ≥ 3) at downscale factor 2 has
support 6 source pixels on each side of the destination-pixel centre,
which the resampler samples at 11 taps: destination column x reads
source columns 2x - 4 .. 2x + 6, tap i carrying weight L((i - 4.5)/2).
The library normalises the 11 weights to unit sum and stores them in
fixed point with 22 fractional bits (rounding half away from zero);
these are those stored values.  Note the negative first side lobe
(taps 1-2 and 7-8) and the positive second lobe (taps 0, 9, 10). -/
def lanczosTap : ℕ → ℤ
  | 0 => 63384
  | 1 => -143129
  | 2 => -280532
  | 3 => 570455
  | 4 => 1879209
  | 5 => 1879209
  | 6 => 570455
  | 7 => -280532
  | 8 => -143129
  | 9 => 63384
  | 10 => 15531
  | _ => 0

/-- A stored fixed-point coefficient as the exact rational it denotes. -/
def lanczosW (i : ℕ) : ℚ := (lanczosTap i : ℚ) / 4194304

/-- The horizontal pass of the 2× LANCZOS downscale: each channel of
destination column x is the byte-clamped rounded weighted sum of source
columns 2x - 4 .. 2x + 6. -/
def resampleX (c : Canvas) : Canvas :=
  fun x y =>
    ⟨clampChan (pyRound (∑ i ∈ Finset.range 11, lanczosW i * ((c (2 * x + (i : ℤ) - 4) y).r : ℚ))),
     clampChan (pyRound (∑ i ∈ Finset.range 11, lanczosW i * ((c (2 * x + (i : ℤ) - 4) y).g : ℚ))),
     clampChan (pyRound (∑ i ∈ Finset.range 11, lanczosW i * ((c (2 * x + (i : ℤ) - 4) y).b : ℚ))),
     clampChan (pyRound (∑ i ∈ Finset.range 11, lanczosW i * ((c (2 * x + (i : ℤ) - 4) y).a : ℚ)))⟩

/-- The vertical pass: the same 11 taps along y. -/
def resampleY (c : Canvas) : Canvas :=
  fun x y =>
    ⟨clampChan (pyRound (∑ i ∈ Finset.range 11, lanczosW i * ((c x (2 * y + (i : ℤ) - 4)).r : ℚ))),
     clampChan (pyRound (∑ i ∈ Finset.range 11, lanczosW i * ((c x (2 * y + (i : ℤ) - 4)).g : ℚ))),
     clampChan (pyRound (∑ i ∈ Finset.range 11, lanczosW i * ((c x (2 * y + (i : ℤ) - 4)).b : ℚ))),
     clampChan (pyRound (∑ i ∈ Finset.range 11, lanczosW i * ((c x (2 * y + (i : ℤ) - 4)).a : ℚ)))⟩

/-- `finalize(img)` (lines 92-94): the `img.resize((256, 256),
Image.LANCZOS)` supersample-to-target downscale, as the library
computes it: a separable horizontal-then-vertical pass with the 11-tap
LANCZOS coefficients, each pass rounding and clamping every channel to
a byte. -/
def finalize (c : Canvas) : Canvas := resampleY (resampleX c)

abbrev Image := Canvas

/-! ## The `random` module, as explicit state -/

/-- State of Python's global random generator. -/
structure Rng where
  s : ℕ
  deriving DecidableEq, Repr

/-- `random.seed(n)`: replace the generator state by a function of `n`. -/
def seedRng (n : ℕ) : Rng := ⟨n⟩

/-- `random.randint(lo, hi)`: one deterministic generator step plus a
reduction into `[lo, hi]` (both ends included). -/
def randint (lo hi : ℤ) (r : Rng) : ℤ × Rng :=
  let s := (r.s * 1103515245 + 12345) % 2147483648
  (lo + ((s % (hi + 1 - lo).toNat : ℕ) : ℤ), ⟨s⟩)

/-! ## The `math` module, as an opaque parameter -/

/-- The floating-point `math` functions the drawers consume.  No claim
depends on their values, only on them being fixed functions, so they
are a parameter of the drawers. -/
structure FloatLib where
  pi : ℚ
  cos : ℚ → ℚ
  sin : ℚ → ℚ
  radians : ℚ → ℚ

/-- A concrete instantiation used by witnesses. -/
def flZero : FloatLib := ⟨0, fun _ => 0, fun _ => 0, fun _ => 0⟩

/-! ## Constant tables (lines 33-80) -/

/-- Association list lookup, modelling Python dict indexing: `none`
models the `KeyError` raised for an unknown key. -/
def lookupKey {β : Type} (k : String) : List (String × β) → Option β
  | [] => none
  | (k', v) :: rest => if k = k' then some v else lookupKey k rest

/-- Pathogen colors (lines 33-46). -/
def COLORS : List (String × RGB) :=
  [("coccus", ⟨76, 175, 80⟩),
   ("bacillus", ⟨139, 195, 74⟩),
   ("spirillum", ⟨0, 150, 136⟩),
   ("influenza", ⟨244, 67, 54⟩),
   ("retrovirus", ⟨198, 40, 40⟩),
   ("phage", ⟨255, 87, 34⟩),
   ("mold", ⟨156, 39, 176⟩),
   ("yeast", ⟨206, 147, 216⟩),
   ("spore", ⟨74, 20, 140⟩)]

/-- Medicine colors (lines 49-59). -/
def MED_COLORS : List (String × RGB) :=
  [("penicillin", ⟨0, 229, 255⟩),
   ("tetracycline", ⟨24, 255, 255⟩),
   ("streptomycin", ⟨0, 191, 165⟩),
   ("tamiflu", ⟨118, 255, 3⟩),
   ("zidovudine", ⟨178, 255, 89⟩),
   ("interferon", ⟨174, 234, 0⟩),
   ("fluconazole", ⟨234, 128, 252⟩),
   ("nystatin", ⟨224, 64, 251⟩),
   ("amphotericin", ⟨213, 0, 249⟩)]

/-- Medicine → pathogen mapping (lines 62-72). -/
def MED_TO_PATH : List (String × String) :=
  [("penicillin", "coccus"),
   ("tetracycline", "bacillus"),
   ("streptomycin", "spirillum"),
   ("tamiflu", "influenza"),
   ("zidovudine", "retrovirus"),
   ("interferon", "phage"),
   ("fluconazole", "mold"),
   ("nystatin", "yeast"),
   ("amphotericin", "spore")]

structure Theme where
  name : String
  empty : RGB
  wall : RGB
  accent : RGB
  deriving DecidableEq, Repr

/-- World themes (lines 75-80). -/
def WORLD_THEMES : List (ℕ × Theme) :=
  [(1, ⟨"Petri Dish", ⟨26, 40, 30⟩, ⟨58, 68, 52⟩, ⟨76, 175, 80⟩⟩),
   (2, ⟨"Bloodstream", ⟨40, 20, 22⟩, ⟨72, 32, 35⟩, ⟨229, 57, 53⟩⟩),
   (3, ⟨"Tissue", ⟨32, 22, 40⟩, ⟨58, 38, 68⟩, ⟨171, 71, 188⟩⟩),
   (4, ⟨"Pandemic", ⟨40, 30, 18⟩, ⟨72, 58, 32⟩, ⟨255, 111, 0⟩⟩)]

/-- Association list lookup on the world-id table. -/
def lookupWorld (k : ℕ) : List (ℕ × Theme) → Option Theme
  | [] => none
  | (k', v) :: rest => if k = k' then some v else lookupWorld k rest

/-! ## Glow renderer (`draw_glow`, lines 122-131) -/

/-- The five concentric glow circles of increasing radius and
decreasing alpha.  Note the truncated subtraction `alpha - i*15`
composed with `max 5` agrees with Python `max(5, alpha - i*15)`. -/
def glowOps (cx cy radius : ℚ) (color : RGB) (alpha : ℕ) : List DrawOp :=
  (List.range 5).map fun (i : ℕ) =>
    DrawOp.ellipse (cx - (radius + (i : ℚ) * 8)) (cy - (radius + (i : ℚ) * 8))
      (cx + (radius + (i : ℚ) * 8)) (cy + (radius + (i : ℚ) * 8))
      (px color (max 5 (alpha - 15 * i)))

/-- `draw_glow(img, cx, cy, radius, color, alpha)`: draw the circle
stack on a fresh layer, blur it, and paste it (premultiplied against
transparent black, masked by its own alpha) onto the canvas. -/
def draw_glow (c : Canvas) (cx cy radius : ℚ) (color : RGB) (alpha : ℕ) : Canvas :=
  let glow := render (glowOps cx cy radius color alpha) new_canvas
  let blurred := gaussianBlur12 glow
  pasteMasked c (alphaCompositeCanvas new_canvas blurred) blurred

/-! ## Branch generator (`add_branch` inside `draw_mold`, lines 345-356) -/

/-- One emitted branch segment: start point, end point, stroke width,
depth at emission. -/
structure Segment where
  x1 : ℚ
  y1 : ℚ
  x2 : ℚ
  y2 : ℚ
  w : ℚ
  depth : ℤ
  deriving DecidableEq, Repr

/-- `add_branch(x, y, angle, length, width, depth)`: recursive
tree-growth.  The returned list is the sequence of `branches.append`
calls it performs, in order. -/
def add_branch (M : FloatLib) (x y angle length width : ℚ) (depth : ℤ) : List Segment :=
  if h : depth ≤ 0 ∨ length < 15 then []
  else
    let ex := x + M.cos angle * length
    let ey := y + M.sin angle * length
    let spread : ℚ := 0.6
    ⟨x, y, ex, ey, width, depth⟩ ::
      (add_branch M ex ey (angle - spread) (length * 0.65) (width * 0.7) (depth - 1) ++
        (add_branch M ex ey (angle + spread) (length * 0.65) (width * 0.7) (depth - 1) ++
          if 2 < depth then add_branch M ex ey angle (length * 0.5) (width * 0.6) (depth - 1)
          else []))
termination_by depth.toNat
decreasing_by
  all_goals
    rw [not_or] at h
    have h1 : 0 < depth := lt_of_not_le h.1
    omega

/-- The flat branch list of `draw_mold` (lines 358-361): four trunks
grown from the canvas center. -/
def mold_branches (M : FloatLib) : List Segment :=
  [(30 : ℚ), 120, 210, 310].flatMap fun angle_deg =>
    add_branch M 256 256 (M.radians angle_deg) 110 16 5

/-! ## Pathogen drawers (lines 138-441) -/

/-- `draw_coccus` circle positions (lines 145-151). -/
def coccusPositions : List (ℚ × ℚ × ℚ) :=
  [(256 - 40, 256 - 35, 72),
   (256 + 35, 256 - 25, 65),
   (256 - 20, 256 + 30, 68),
   (256 + 25, 256 + 35, 62),
   (256 + 5, 256 - 5, 78)]

/-- The draw calls of `draw_coccus` after its glow (lines 152-161). -/
def coccusOps (color : RGB) : List DrawOp :=
  coccusPositions.flatMap fun (x, y, r) =>
    [DrawOp.ellipse (x - r - 4) (y - r - 4) (x + r + 4) (y + r + 4) (px (darken color 0.4) 200),
     DrawOp.ellipse (x - r) (y - r) (x + r) (y + r) (px color 220),
     DrawOp.ellipse (x - r * 0.4) (y - r * 0.5) (x + r * 0.1) (y - r * 0.1)
       (px (lighten color 0.5) 120)]

/-- `draw_coccus(img, color)` (lines 138-161). -/
def draw_coccus (c : Canvas) (color : RGB) : Canvas :=
  render (coccusOps color) (draw_glow c 256 256 60 color 60)

/-- `draw_bacillus` rod endpoints (lines 171-175); the fifth component
is unused by the drawing code. -/
def bacillusRods : List (ℚ × ℚ × ℚ × ℚ × ℚ) :=
  [(256 - 60, 256 - 40, 256 + 80, 256 + 10, -15),
   (256 - 30, 256 + 20, 256 + 90, 256 + 70, 10),
   (256 - 70, 256 + 10, 256 + 30, 256 + 55, -5)]

def bacillusOps (color : RGB) : List DrawOp :=
  bacillusRods.flatMap fun (x1, y1, x2, y2, _) =>
    [DrawOp.roundedRect (x1 - 4) (y1 - 4) (x2 + 4) (y2 + 4) 30 (px (darken color 0.3) 200),
     DrawOp.roundedRect x1 y1 x2 y2 28 (px color 230),
     DrawOp.roundedRect (x1 + 8) (y1 + 5) (x2 - 8) (y1 + 15) 8 (px (lighten color 0.4) 100)]

/-- `draw_bacillus(img, color)` (lines 164-187). -/
def draw_bacillus (c : Canvas) (color : RGB) : Canvas :=
  render (bacillusOps color) (draw_glow c 256 256 70 color 50)

/-- The 100 samples of the spirillum sine curve (lines 198-203). -/
def spirillumPoints (M : FloatLib) : List (ℚ × ℚ) :=
  (List.range 100).map fun i =>
    (256 - 160 + (i : ℚ) / 100 * 320, 256 + M.sin ((i : ℚ) / 100 * M.pi * 3) * 80)

def spirillumOps (M : FloatLib) (color : RGB) : List DrawOp :=
  let pts := spirillumPoints M
  (pts.zip pts.tail).map (fun e =>
      DrawOp.seg e.1.1 e.1.2 e.2.1 e.2.2 (36 + 6) (px (darken color 0.3) 200)) ++
  (pts.zip pts.tail).map (fun e =>
      DrawOp.seg e.1.1 e.1.2 e.2.1 e.2.2 36 (px color 230)) ++
  (pts.zip pts.tail).map (fun e =>
      DrawOp.seg e.1.1 (e.1.2 - 8) e.2.1 (e.2.2 - 8) 8 (px (lighten color 0.4) 90))

/-- `draw_spirillum(img, color)` (lines 190-219). -/
def draw_spirillum (M : FloatLib) (c : Canvas) (color : RGB) : Canvas :=
  render (spirillumOps M color) (draw_glow c 256 256 80 color 50)

def influenzaOps (M : FloatLib) (color : RGB) : List DrawOp :=
  ((List.range 14).flatMap fun i =>
    let angle := 2 * M.pi * (i : ℚ) / 14
    let sx := 256 + M.cos angle * (90 + 30)
    let sy := 256 + M.sin angle * (90 + 30)
    let tx := 256 + M.cos angle * (90 + 65)
    let ty := 256 + M.sin angle * (90 + 65)
    [DrawOp.seg sx sy tx ty 10 (px (darken color 0.2) 220),
     DrawOp.ellipse (tx - 14) (ty - 14) (tx + 14) (ty + 14) (px (lighten color 0.2) 220)]) ++
  [DrawOp.ellipse (256 - 90 - 3) (256 - 90 - 3) (256 + 90 + 3) (256 + 90 + 3)
     (px (darken color 0.3) 220),
   DrawOp.ellipse (256 - 90) (256 - 90) (256 + 90) (256 + 90) (px color 240),
   DrawOp.ellipse (256 - 90 * 0.5) (256 - 90 * 0.6) (256 + 90 * 0.1) (256 - 90 * 0.1)
     (px (lighten color 0.5) 100)]

/-- `draw_influenza(img, color)` (lines 222-254). -/
def draw_influenza (M : FloatLib) (c : Canvas) (color : RGB) : Canvas :=
  render (influenzaOps M color) (draw_glow c 256 256 80 color 60)

def retrovirusHexPts (M : FloatLib) : List (ℚ × ℚ) :=
  (List.range 6).map fun i =>
    (256 + 110 * M.cos (M.pi / 3 * (i : ℚ) - M.pi / 6),
     256 + 110 * M.sin (M.pi / 3 * (i : ℚ) - M.pi / 6))

def retrovirusInnerPts (M : FloatLib) : List (ℚ × ℚ) :=
  (List.range 6).map fun i =>
    (256 + 110 * 0.85 * M.cos (M.pi / 3 * (i : ℚ) - M.pi / 6),
     256 + 110 * 0.85 * M.sin (M.pi / 3 * (i : ℚ) - M.pi / 6))

def retrovirusOps (M : FloatLib) (color : RGB) : List DrawOp :=
  [DrawOp.polygon (retrovirusHexPts M) (px (darken color 0.3) 220),
   DrawOp.polygonOutline (retrovirusHexPts M) 4 (px (darken color 0.5) 200),
   DrawOp.polygon (retrovirusInnerPts M) (px color 230)] ++
  (retrovirusInnerPts M).map (fun p =>
    DrawOp.seg 256 256 p.1 p.2 3 (px (darken color 0.15) 140)) ++
  [DrawOp.ellipse (256 - 18) (256 - 18) (256 + 18) (256 + 18) (px (lighten color 0.3) 200),
   DrawOp.polygon [(retrovirusInnerPts M).getD 4 (0, 0), (retrovirusInnerPts M).getD 5 (0, 0),
     (256, 256)] (px (lighten color 0.3) 80)]

/-- `draw_retrovirus(img, color)` (lines 257-287). -/
def draw_retrovirus (M : FloatLib) (c : Canvas) (color : RGB) : Canvas :=
  render (retrovirusOps M color) (draw_glow c 256 256 80 color 60)

def phageHeadPts (M : FloatLib) : List (ℚ × ℚ) :=
  (List.range 6).map fun i =>
    (256 + 70 * M.cos (M.pi / 3 * (i : ℚ) - M.pi / 2),
     256 - 70 + 70 * M.sin (M.pi / 3 * (i : ℚ) - M.pi / 2))

def phageOps (M : FloatLib) (color : RGB) : List DrawOp :=
  [DrawOp.polygon (phageHeadPts M) (px (darken color 0.2) 220),
   DrawOp.polygonOutline (phageHeadPts M) 4 (px (darken color 0.5) 200),
   DrawOp.polygon (phageHeadPts M) (px color 220),
   DrawOp.rect (256 - 12) (256 - 70 + 70 - 10) (256 + 12) (256 + 120)
     (px (darken color 0.15) 220),
   DrawOp.ellipse (256 - 35) (256 + 120 - 12) (256 + 35) (256 + 120 + 12) (px color 200)] ++
  ([(-60 : ℚ), -30, -10, 10, 30, 60].flatMap fun angle =>
    let rad := M.radians angle
    let ex := 256 + M.sin rad * 80
    let ey := 256 + 120 + M.cos rad * 80 * 0.6
    [DrawOp.seg 256 (256 + 120) ex ey 5 (px (darken color 0.1) 200),
     DrawOp.ellipse (ex - 6) (ey - 6) (ex + 6) (ey + 6) (px (lighten color 0.2) 200)]) ++
  [DrawOp.ellipse (256 - 25) (256 - 70 - 30) (256 + 5) (256 - 70 + 5)
     (px (lighten color 0.4) 80)]

/-- `draw_phage(img, color)` (lines 290-332). -/
def draw_phage (M : FloatLib) (c : Canvas) (color : RGB) : Canvas :=
  render (phageOps M color) (draw_glow c 256 256 80 color 50)

def moldOps (M : FloatLib) (color : RGB) : List DrawOp :=
  (mold_branches M).map (fun s =>
    DrawOp.seg s.x1 s.y1 s.x2 s.y2 ((pyInt s.w + 4 : ℤ) : ℚ) (px (darken color 0.4) 180)) ++
  (mold_branches M).map (fun s =>
    DrawOp.seg s.x1 s.y1 s.x2 s.y2 ((max 2 (pyInt s.w) : ℤ) : ℚ)
      (px color (200 + s.depth * 5).toNat)) ++
  ((mold_branches M).filter (fun s => s.depth == 1)).map (fun s =>
    DrawOp.ellipse (s.x2 - 8) (s.y2 - 8) (s.x2 + 8) (s.y2 + 8) (px (lighten color 0.3) 180)) ++
  [DrawOp.ellipse (256 - 20) (256 - 20) (256 + 20) (256 + 20) (px color 240)]

/-- `draw_mold(img, color)` (lines 335-377). -/
def draw_mold (M : FloatLib) (c : Canvas) (color : RGB) : Canvas :=
  render (moldOps M color) (draw_glow c 256 256 70 color 50)

/-- `draw_yeast` cell ovals (lines 387-392). -/
def yeastCells : List (ℚ × ℚ × ℚ × ℚ) :=
  [(256 - 50, 256 - 20, 75, 95),
   (256 + 55, 256 - 30, 55, 70),
   (256 - 20, 256 + 60, 50, 60),
   (256 + 30, 256 + 50, 40, 50)]

def yeastOps (color : RGB) : List DrawOp :=
  yeastCells.flatMap fun (x, y, rx, ry) =>
    [DrawOp.ellipse (x - rx - 3) (y - ry - 3) (x + rx + 3) (y + ry + 3)
       (px (darken color 0.35) 200),
     DrawOp.ellipse (x - rx) (y - ry) (x + rx) (y + ry) (px color 220),
     DrawOp.ellipse (x - rx * 0.25) (y - ry * 0.2) (x + rx * 0.25) (y + ry * 0.3)
       (px (darken color 0.25) 150),
     DrawOp.ellipse (x - rx * 0.5) (y - ry * 0.6) (x - rx * 0.1) (y - ry * 0.2)
       (px (lighten color 0.45) 100)]

/-- `draw_yeast(img, color)` (lines 380-405). -/
def draw_yeast (c : Canvas) (color : RGB) : Canvas :=
  render (yeastOps color) (draw_glow c 256 256 70 color 50)

def sporeOps (M : FloatLib) (color : RGB) : List DrawOp :=
  ((List.range 12).flatMap fun i =>
    let angle := 2 * M.pi * (i : ℚ) / 12 + 0.15
    let ix := 256 + M.cos angle * 35
    let iy := 256 + M.sin angle * 35
    let outer_r : ℚ := 140 + ((i % 3 : ℕ) : ℚ) * 30
    let ox := 256 + M.cos angle * outer_r
    let oy := 256 + M.sin angle * outer_r
    let dot_r : ℚ := 10 + ((i % 2 : ℕ) : ℚ) * 5
    [DrawOp.seg ix iy ox oy 6 (px color 180),
     DrawOp.ellipse (ox - dot_r) (oy - dot_r) (ox + dot_r) (oy + dot_r)
       (px (lighten color 0.3) 200)]) ++
  [DrawOp.ellipse (256 - 45) (256 - 45) (256 + 45) (256 + 45) (px (darken color 0.3) 230),
   DrawOp.ellipse (256 - 35) (256 - 35) (256 + 35) (256 + 35) (px color 240),
   DrawOp.ellipse (256 - 18) (256 - 18) (256 + 18) (256 + 18) (px (lighten color 0.4) 200)]

/-- `draw_spore(img, color)` (lines 408-441). -/
def draw_spore (M : FloatLib) (c : Canvas) (color : RGB) : Canvas :=
  render (sporeOps M color) (draw_glow c 256 256 100 color 70)

/-- Pathogen drawer dispatch table (lines 448-458). -/
def PATHOGEN_DRAWERS (M : FloatLib) : List (String × (Canvas → RGB → Canvas)) :=
  [("coccus", draw_coccus),
   ("bacillus", draw_bacillus),
   ("spirillum", draw_spirillum M),
   ("influenza", draw_influenza M),
   ("retrovirus", draw_retrovirus M),
   ("phage", draw_phage M),
   ("mold", draw_mold M),
   ("yeast", draw_yeast),
   ("spore", draw_spore M)]

/-! ## Medicine compositor (lines 465-507) -/

/-- The four rounded-rectangle draw calls of `draw_medicine_cross`
(lines 465-482): colored outline pair, then white inner pair. -/
def medicineCrossOps (color : RGB) : List DrawOp :=
  [DrawOp.roundedRect (256 - 22 - 3) (256 - 60 - 3) (256 + 22 + 3) (256 + 60 + 3) 6
     (px color 200),
   DrawOp.roundedRect (256 - 60 - 3) (256 - 22 - 3) (256 + 60 + 3) (256 + 22 + 3) 6
     (px color 200),
   DrawOp.roundedRect (256 - 22) (256 - 60) (256 + 22) (256 + 60) 4 ⟨255, 255, 255, 220⟩,
   DrawOp.roundedRect (256 - 60) (256 - 22) (256 + 60) (256 + 22) 4 ⟨255, 255, 255, 220⟩]

/-- The supersampled canvas `generate_medicine` hands to `finalize`:
pathogen drawer with the blended color on a fresh canvas, the flat
alpha-60 medicine tint composited over it, then the cross.  `none`
models the `KeyError` on an unknown pathogen name. -/
def medicinePre (M : FloatLib) (pathogen_name med_name : String) (med_color : RGB) :
    Option Canvas :=
  match lookupKey pathogen_name COLORS, lookupKey pathogen_name (PATHOGEN_DRAWERS M) with
  | some base_color, some drawer =>
    let blended : RGB := ⟨(base_color.r + med_color.r) / 2,
                          (base_color.g + med_color.g) / 2,
                          (base_color.b + med_color.b) / 2⟩
    let img := drawer new_canvas blended
    let tinted := alphaCompositeCanvas img (fun _ _ => px med_color 60)
    some (render (medicineCrossOps med_color) tinted)
  | _, _ => none

/-- `generate_medicine(pathogen_name, med_name, med_color)` (lines 485-507). -/
def generate_medicine (M : FloatLib) (pathogen_name med_name : String) (med_color : RGB) :
    Option Image :=
  (medicinePre M pathogen_name med_name med_color).map finalize

/-! ## World tile generators (lines 514-628) -/

/-- The world-specific motif pass of `generate_empty_tile`
(lines 532-557). -/
def emptyMotifOps (M : FloatLib) (world_num : ℕ) (theme : Theme) : List DrawOp :=
  if world_num = 1 then
    (List.range 3).map fun (i : ℕ) =>
      DrawOp.ellipseOutline (256 - (60 + (i : ℚ) * 50)) (256 - (60 + (i : ℚ) * 50))
        (256 + (60 + (i : ℚ) * 50)) (256 + (60 + (i : ℚ) * 50)) 1 (px theme.accent 15)
  else if world_num = 2 then
    [(-1 : ℤ), 0, 1, 2].map fun y_off =>
      DrawOp.polyline ((List.range 27).map fun (k : ℕ) =>
        let x : ℚ := (k : ℚ) * 20
        (x, 128 + (y_off : ℚ) * 150 + (pyInt (20 * M.sin (x / 60)) : ℚ))) 2
        (px theme.accent 12)
  else if world_num = 3 then
    (List.range 4).flatMap fun (row : ℕ) =>
      (List.range 4).map fun (col : ℕ) =>
        let cx : ℚ := (col : ℚ) * 140 + ((row % 2 : ℕ) : ℚ) * 70
        let cy : ℚ := (row : ℚ) * 140
        DrawOp.polygonOutline ((List.range 6).map fun (i : ℕ) =>
          (cx + 60 * M.cos (M.pi / 3 * (i : ℚ)), cy + 60 * M.sin (M.pi / 3 * (i : ℚ)))) 1
          (px theme.accent 15)
  else if world_num = 4 then
    [DrawOp.seg 0 0 512 512 3 (px theme.accent 8),
     DrawOp.seg 512 0 0 512 3 (px theme.accent 8)]
  else []

/-- The 400 grain-noise draws of `generate_empty_tile` (lines 560-567):
each iteration picks a random position, perturbs the base color by
`v ∈ [-8, 8]`, and draws one point with alpha 60. -/
def grainPts (base : RGB) : Rng → ℕ → List (ℤ × ℤ × Pixel)
  | _, 0 => []
  | r, n + 1 =>
    let xr := randint 0 511 r
    let yr := randint 0 511 xr.2
    let vr := randint (-8) 8 yr.2
    (xr.1, yr.1,
      (⟨clampChan (base.r + vr.1), clampChan (base.g + vr.1), clampChan (base.b + vr.1),
        60⟩ : Pixel)) ::
      grainPts base vr.2 n

def grainOps (base : RGB) (r : Rng) : List DrawOp :=
  (grainPts base r 400).map fun t => DrawOp.point t.1 t.2.1 t.2.2

/-- All draw calls of `generate_empty_tile`: base fill (note the
inclusive rectangle reaches coordinate 512), inner groove, motif, and
the grain pass seeded from the world id. -/
def emptyTileOps (M : FloatLib) (world_num : ℕ) (theme : Theme) : List DrawOp :=
  DrawOp.rect 0 0 512 512 (px theme.empty 255) ::
    DrawOp.rectOutline 12 12 (512 - 12) (512 - 12) 2 (px (lighten theme.empty 0.15) 80) ::
    (emptyMotifOps M world_num theme ++
      grainOps theme.empty (seedRng (world_num * 1000)))

/-- The supersampled empty-tile canvas handed to `finalize`. -/
def emptyTileCanvas (M : FloatLib) (world_num : ℕ) (theme : Theme) : Canvas :=
  render (emptyTileOps M world_num theme) new_canvas

/-- `generate_empty_tile(world_num)` (lines 514-569).  The parameter
`rng0` is the process-global `random` state at call time; the body
discards it because the source calls `random.seed(world_num * 1000)`
before the only use of randomness (the grain pass). -/
def generate_empty_tile (M : FloatLib) (world_num : ℕ) (rng0 : Rng) : Option Image :=
  (lookupWorld world_num WORLD_THEMES).map fun theme =>
    finalize (emptyTileCanvas M world_num theme)

/-- All draw calls of `generate_wall_tile` (lines 572-628). -/
def wallTileOps (M : FloatLib) (world_num : ℕ) (theme : Theme) : List DrawOp :=
  DrawOp.rect 0 0 512 512 (px theme.wall 255) ::
    (if world_num = 1 then
      [DrawOp.rect 8 8 (512 - 8) (512 - 8) (px (lighten theme.wall 0.12) 255),
       DrawOp.rect 16 16 (512 - 16) (512 - 16) (px theme.wall 255),
       DrawOp.seg 8 8 (512 - 8) 8 3 (px (lighten theme.wall 0.3) 150),
       DrawOp.seg 8 8 8 (512 - 8) 3 (px (lighten theme.wall 0.2) 120)]
    else if world_num = 2 then
      ((List.range 5).map fun (i : ℕ) =>
        DrawOp.polyline ((List.range 53).map fun (k : ℕ) =>
          let x : ℚ := (k : ℚ) * 10
          (x, 50 + (i : ℚ) * 100 + (pyInt (15 * M.sin (x / 40 + (i : ℚ))) : ℚ))) 4
          (px (darken theme.wall 0.2) 100)) ++
      [DrawOp.rectOutline 4 4 (512 - 4) (512 - 4) 4 (px theme.accent 50)]
    else if world_num = 3 then
      ((List.range 8).map fun (i : ℕ) =>
        DrawOp.rect 0 ((i : ℚ) * 65) 512 ((i : ℚ) * 65 + 30)
          (px (lighten theme.wall 0.08) 255)) ++
      [DrawOp.rectOutline 6 6 (512 - 6) (512 - 6) 3 (px theme.accent 40)]
    else if world_num = 4 then
      [DrawOp.rect 6 6 (512 - 6) (512 - 6) (px (lighten theme.wall 0.1) 255),
       DrawOp.rectOutline 6 6 (512 - 6) (512 - 6) 4 (px theme.accent 80)] ++
      ([((40 : ℚ), (40 : ℚ)), (512 - 40, 40), (40, 512 - 40), (512 - 40, 512 - 40)].flatMap
        fun rxy =>
          [DrawOp.ellipse (rxy.1 - 14) (rxy.2 - 14) (rxy.1 + 14) (rxy.2 + 14)
             (px (lighten theme.wall 0.25) 200),
           DrawOp.ellipse (rxy.1 - 14 + 3) (rxy.2 - 14 + 3) (rxy.1 + 14 - 5) (rxy.2 + 14 - 5)
             (px (lighten theme.wall 0.35) 150)]) ++
      [DrawOp.seg 80 80 (512 - 80) (512 - 80) 6 (px theme.accent 40),
       DrawOp.seg (512 - 80) 80 80 (512 - 80) 6 (px theme.accent 40)]
    else [])

/-- The supersampled wall-tile canvas handed to `finalize`. -/
def wallTileCanvas (M : FloatLib) (world_num : ℕ) (theme : Theme) : Canvas :=
  render (wallTileOps M world_num theme) new_canvas

/-- `generate_wall_tile(world_num)` (lines 572-628). -/
def generate_wall_tile (M : FloatLib) (world_num : ℕ) : Option Image :=
  (lookupWorld world_num WORLD_THEMES).map fun theme =>
    finalize (wallTileCanvas M world_num theme)

/-! ## Engine interface (spec §6) -/

inductive TileKind where
  | empty
  | wall
  deriving DecidableEq, Repr

/-- `synthesizeTile(worldId, kind)`.  `rng0` is the process-global
random state when the call happens. -/
def synthesizeTile (M : FloatLib) (w : ℕ) (k : TileKind) (rng0 : Rng) : Option Image :=
  match k with
  | .empty => generate_empty_tile M w rng0
  | .wall => generate_wall_tile M w

/-- `synthesizeOrganism(id, color)`: dispatch through
`PATHOGEN_DRAWERS` (line 649), then finalize. -/
def synthesizeOrganism (M : FloatLib) (name : String) (color : RGB) : Option Image :=
  (lookupKey name (PATHOGEN_DRAWERS M)).map fun drawer => finalize (drawer new_canvas color)

/-- `synthesizeMedicine(medicineId)`: the caller-side pairing of
lines 657-659 (`MED_TO_PATH` / `MED_COLORS`) followed by
`generate_medicine`. -/
def synthesizeMedicine (M : FloatLib) (med_name : String) : Option Image :=
  match lookupKey med_name MED_TO_PATH, lookupKey med_name MED_COLORS with
  | some path_name, some med_color => generate_medicine M path_name med_name med_color
  | _, _ => none

/-- Channel-wise average of two colors (spec §4.6 wording). -/
def RGB.avg (a b : RGB) : RGB :=
  ⟨(a.r + b.r) / 2, (a.g + b.g) / 2, (a.b + b.b) / 2⟩

/-- The Medicine Compositor pipeline exactly as the spec (§4.6) words
it: compute the blended color (channel-wise average), invoke the
matching shape synthesizer with it on a fresh canvas, alpha-composite
a flat medicine-colored alpha-60 layer over the whole canvas, then
draw the cross icon, then finalize.  Numeric geometry constants are
configuration ported as-is (spec §9). -/
def composeMedicine_spec (M : FloatLib) (organismId : String)
    (organismColor medicineColor : RGB) : Option Image :=
  (lookupKey organismId (PATHOGEN_DRAWERS M)).map fun synth =>
    let blended := RGB.avg organismColor medicineColor
    let onFresh := synth new_canvas blended
    let tinted := alphaCompositeCanvas onFresh (fun _ _ => px medicineColor 60)
    let withCross := render (medicineCrossOps medicineColor) tinted
    finalize withCross


/-- Closed-form node-count bound of a depth-`n` ternary tree:
`branchBound n = (3^n - 1) / 2`. -/
def branchBound : ℕ → ℕ
  | 0 => 0
  | n + 1 => 3 * branchBound n + 1


section ClampLemmas

lemma pyInt_nonneg {q : ℚ} (h : 0 ≤ q) : 0 ≤ pyInt q := by
  unfold pyInt
  rw [if_pos h]
  exact_mod_cast Int.floor_nonneg.mpr h

lemma pyInt_le_of_le {q : ℚ} {n : ℤ} (h : q ≤ (n : ℚ)) (h0 : 0 ≤ q) : pyInt q ≤ n := by
  unfold pyInt
  rw [if_pos h0]
  calc ⌊q⌋ ≤ ⌊(n : ℚ)⌋ := Int.floor_mono h
    _ = n := Int.floor_intCast n

end ClampLemmas

/-- C5: for every input color whose channels are each in [0,255] and every
amount in [0,1] (boundary values included), all three channels of
`lighten color amount` and of `darken color amount` lie in [0,255]. -/
theorem C5_clamp_invariant (c : RGB) (amount : ℚ)
    (hr0 : 0 ≤ c.r) (hr1 : c.r ≤ 255)
    (hg0 : 0 ≤ c.g) (hg1 : c.g ≤ 255)
    (hb0 : 0 ≤ c.b) (hb1 : c.b ≤ 255)
    (ha0 : 0 ≤ amount) (ha1 : amount ≤ 1) :
    (0 ≤ (lighten c amount).r ∧ (lighten c amount).r ≤ 255) ∧
    (0 ≤ (lighten c amount).g ∧ (lighten c amount).g ≤ 255) ∧
    (0 ≤ (lighten c amount).b ∧ (lighten c amount).b ≤ 255) ∧
    (0 ≤ (darken c amount).r ∧ (darken c amount).r ≤ 255) ∧
    (0 ≤ (darken c amount).g ∧ (darken c amount).g ≤ 255) ∧
    (0 ≤ (darken c amount).b ∧ (darken c amount).b ≤ 255) := by
  have lighten_ch : ∀ v : ℤ, 0 ≤ v → v ≤ 255 →
      0 ≤ min 255 (pyInt ((v : ℚ) + (255 - (v : ℚ)) * amount)) ∧
      min 255 (pyInt ((v : ℚ) + (255 - (v : ℚ)) * amount)) ≤ 255 := by
    intro v hv0 hv1
    have hv0q : (0 : ℚ) ≤ (v : ℚ) := by exact_mod_cast hv0
    have hv1q : (v : ℚ) ≤ 255 := by exact_mod_cast hv1
    have hin : 0 ≤ (v : ℚ) + (255 - (v : ℚ)) * amount := by nlinarith
    constructor
    · exact le_min (by norm_num) (pyInt_nonneg hin)
    · exact min_le_left _ _
  have darken_ch : ∀ v : ℤ, 0 ≤ v → v ≤ 255 →
      0 ≤ max 0 (pyInt ((v : ℚ) * (1 - amount))) ∧
      max 0 (pyInt ((v : ℚ) * (1 - amount))) ≤ 255 := by
    intro v hv0 hv1
    have hv0q : (0 : ℚ) ≤ (v : ℚ) := by exact_mod_cast hv0
    have hv1q : (v : ℚ) ≤ 255 := by exact_mod_cast hv1
    have hin0 : 0 ≤ (v : ℚ) * (1 - amount) := by nlinarith
    have hin1 : (v : ℚ) * (1 - amount) ≤ ((255 : ℤ) : ℚ) := by push_cast; nlinarith
    exact ⟨le_max_left _ _, max_le (by norm_num) (pyInt_le_of_le hin1 hin0)⟩
  refine ⟨lighten_ch c.r hr0 hr1, lighten_ch c.g hg0 hg1, lighten_ch c.b hb0 hb1,
    darken_ch c.r hr0 hr1, darken_ch c.g hg0 hg1, darken_ch c.b hb0 hb1⟩

/-- Witness for C5 at the boundary input (0, 255, 128) with amount 1. -/
theorem C5_clamp_invariant_witness :
    (0 ≤ (lighten ⟨0, 255, 128⟩ 1).r ∧ (lighten ⟨0, 255, 128⟩ 1).r ≤ 255) ∧
    (0 ≤ (lighten ⟨0, 255, 128⟩ 1).g ∧ (lighten ⟨0, 255, 128⟩ 1).g ≤ 255) ∧
    (0 ≤ (lighten ⟨0, 255, 128⟩ 1).b ∧ (lighten ⟨0, 255, 128⟩ 1).b ≤ 255) ∧
    (0 ≤ (darken ⟨0, 255, 128⟩ 1).r ∧ (darken ⟨0, 255, 128⟩ 1).r ≤ 255) ∧
    (0 ≤ (darken ⟨0, 255, 128⟩ 1).g ∧ (darken ⟨0, 255, 128⟩ 1).g ≤ 255) ∧
    (0 ≤ (darken ⟨0, 255, 128⟩ 1).b ∧ (darken ⟨0, 255, 128⟩ 1).b ≤ 255) :=
  C5_clamp_invariant ⟨0, 255, 128⟩ 1 (by decide) (by decide) (by decide)
    (by decide) (by decide) (by decide) (by norm_num) (by norm_num)


/-- C1: for every world id in 1..4 and both tile kinds, the tile
generator is a function of its arguments alone: two calls with
identical arguments yield byte-identical pixel buffers regardless of
the process-global random state, because the empty-tile grain pass
reseeds the generator from the world id (`random.seed(world_num * 1000)`,
line 561) before consuming any randomness, and the wall generator uses
none. -/
theorem C1_tile_determinism (M : FloatLib) (w : ℕ) (hw1 : 1 ≤ w) (hw4 : w ≤ 4)
    (k : TileKind) (r1 r2 : Rng) :
    synthesizeTile M w k r1 = synthesizeTile M w k r2 ∧
    (synthesizeTile M w k r1).isSome := by
  constructor
  · cases k <;> rfl
  · interval_cases w <;> cases k <;> rfl

/-- Witness for C1: world 1, empty kind, two different random states. -/
theorem C1_tile_determinism_witness :
    synthesizeTile flZero 1 TileKind.empty ⟨0⟩ = synthesizeTile flZero 1 TileKind.empty ⟨999⟩ ∧
    (synthesizeTile flZero 1 TileKind.empty ⟨0⟩).isSome :=
  C1_tile_determinism flZero 1 (by decide) (by decide) TileKind.empty ⟨0⟩ ⟨999⟩

/-- C8: "over" compositing short-circuits at the alpha boundaries: a
fully opaque source replaces the destination pixel exactly, and a
fully transparent source leaves it exactly unchanged, under
`out = src·srcA + dst·(1-srcA)` with alpha treated similarly. -/
theorem C8_over_short_circuit (src dst : Pixel) :
    (src.a = 255 → overPix src dst = src) ∧ (src.a = 0 → overPix src dst = dst) := by
  constructor <;> intro h <;> ext <;> simp [overPix, h]

/-- Witness for C8 at concrete opaque and transparent source pixels. -/
theorem C8_over_short_circuit_witness :
    overPix ⟨10, 20, 30, 255⟩ ⟨1, 2, 3, 4⟩ = ⟨10, 20, 30, 255⟩ ∧
    overPix ⟨10, 20, 30, 0⟩ ⟨1, 2, 3, 4⟩ = ⟨1, 2, 3, 4⟩ :=
  ⟨(C8_over_short_circuit ⟨10, 20, 30, 255⟩ ⟨1, 2, 3, 4⟩).1 rfl,
   (C8_over_short_circuit ⟨10, 20, 30, 0⟩ ⟨1, 2, 3, 4⟩).2 rfl⟩

lemma lookupKey_isSome_mem {β : Type} (k : String) :
    ∀ l : List (String × β), (lookupKey k l).isSome → k ∈ l.map Prod.fst
  | [] => by simp [lookupKey]
  | (k', v) :: rest => by
    simp only [lookupKey, List.map_cons, List.mem_cons]
    by_cases h : k = k'
    · intro _; exact Or.inl h
    · rw [if_neg h]
      intro hs
      exact Or.inr (lookupKey_isSome_mem k rest hs)

/-- C7: a generating operation given an asset id missing from its
constant table fails (returns no image, models the `KeyError`), with
no fallback; every id present in the table produces an image with no
such failure. -/
theorem C7_unknown_asset_id (M : FloatLib) :
    (∀ name color, lookupKey name (PATHOGEN_DRAWERS M) = none →
      synthesizeOrganism M name color = none) ∧
    (∀ name color, (lookupKey name (PATHOGEN_DRAWERS M)).isSome →
      (synthesizeOrganism M name color).isSome) ∧
    (∀ med, lookupKey med MED_TO_PATH = none → synthesizeMedicine M med = none) ∧
    (∀ med, (lookupKey med MED_TO_PATH).isSome → (synthesizeMedicine M med).isSome) ∧
    (∀ w k r, lookupWorld w WORLD_THEMES = none → synthesizeTile M w k r = none) ∧
    (∀ w k r, (lookupWorld w WORLD_THEMES).isSome → (synthesizeTile M w k r).isSome) := by
  refine ⟨?_, ?_, ?_, ?_, ?_, ?_⟩
  · intro name color h
    simp [synthesizeOrganism, h]
  · intro name color h
    obtain ⟨d, hd⟩ := Option.isSome_iff_exists.mp h
    simp [synthesizeOrganism, hd]
  · intro med h
    simp [synthesizeMedicine, h]
  · intro med h
    have hm := lookupKey_isSome_mem med MED_TO_PATH h
    simp only [MED_TO_PATH, List.map_cons, List.map_nil, List.mem_cons,
      List.not_mem_nil, or_false] at hm
    rcases hm with rfl | rfl | rfl | rfl | rfl | rfl | rfl | rfl | rfl <;> rfl
  · intro w k r h
    cases k <;> simp [synthesizeTile, generate_empty_tile, generate_wall_tile, h]
  · intro w k r h
    obtain ⟨t, ht⟩ := Option.isSome_iff_exists.mp h
    cases k <;> simp [synthesizeTile, generate_empty_tile, generate_wall_tile, ht]

/-- Witness for C7: an unknown organism id and world id fail; a known
medicine id succeeds. -/
theorem C7_unknown_asset_id_witness :
    synthesizeOrganism flZero "prion" ⟨0, 0, 0⟩ = none ∧
    (synthesizeMedicine flZero "penicillin").isSome ∧
    synthesizeTile flZero 7 TileKind.wall ⟨0⟩ = none :=
  ⟨(C7_unknown_asset_id flZero).1 "prion" ⟨0, 0, 0⟩ rfl,
   (C7_unknown_asset_id flZero).2.2.2.1 "penicillin" rfl,
   (C7_unknown_asset_id flZero).2.2.2.2.1 7 TileKind.wall ⟨0⟩ rfl⟩

lemma branchBound_eq (n : ℕ) : branchBound n = (3 ^ n - 1) / 2 := by
  have h2 : 2 * branchBound n = 3 ^ n - 1 := by
    induction n with
    | zero => simp [branchBound]
    | succ n ih =>
      have h3 : 1 ≤ 3 ^ n := Nat.one_le_pow _ _ (by norm_num)
      simp only [branchBound, pow_succ]
      omega
  omega

lemma add_branch_stop (M : FloatLib) (x y angle length width : ℚ) (depth : ℤ)
    (h : depth ≤ 0 ∨ length < 15) : add_branch M x y angle length width depth = [] := by
  rw [add_branch.eq_def, dif_pos h]

lemma add_branch_length_le_aux (M : FloatLib) :
    ∀ (n : ℕ) (x y angle length width : ℚ) (depth : ℤ), depth.toNat ≤ n →
      (add_branch M x y angle length width depth).length ≤ branchBound depth.toNat := by
  intro n
  induction n with
  | zero =>
    intro x y angle length width depth hd
    have h0 : depth ≤ 0 := by omega
    rw [add_branch_stop M x y angle length width depth (Or.inl h0)]
    simp
  | succ n ih =>
    intro x y angle length width depth hd
    by_cases h : depth ≤ 0 ∨ length < 15
    · rw [add_branch_stop M x y angle length width depth h]; simp
    · rw [add_branch.eq_def, dif_neg h]
      have h1 : 0 < depth := lt_of_not_le (not_or.mp h).1
      have e : depth.toNat = (depth - 1).toNat + 1 := by omega
      have hih : (depth - 1).toNat ≤ n := by omega
      have b1 := ih (x + M.cos angle * length) (y + M.sin angle * length) (angle - 0.6)
        (length * 0.65) (width * 0.7) (depth - 1) hih
      have b2 := ih (x + M.cos angle * length) (y + M.sin angle * length) (angle + 0.6)
        (length * 0.65) (width * 0.7) (depth - 1) hih
      have b3 := ih (x + M.cos angle * length) (y + M.sin angle * length) angle
        (length * 0.5) (width * 0.6) (depth - 1) hih
      rw [e, branchBound]
      by_cases h2 : 2 < depth
      · simp only [if_pos h2, List.length_cons, List.length_append]
        omega
      · simp only [if_neg h2, List.length_cons, List.length_append, List.length_nil]
        omega

lemma add_branch_depth_pos (M : FloatLib) :
    ∀ (n : ℕ) (x y angle length width : ℚ) (depth : ℤ), depth.toNat ≤ n →
      ∀ s ∈ add_branch M x y angle length width depth, 0 < s.depth := by
  intro n
  induction n with
  | zero =>
    intro x y angle length width depth hd s hs
    have h0 : depth ≤ 0 := by omega
    rw [add_branch_stop M x y angle length width depth (Or.inl h0)] at hs
    simp at hs
  | succ n ih =>
    intro x y angle length width depth hd s hs
    by_cases h : depth ≤ 0 ∨ length < 15
    · rw [add_branch_stop M x y angle length width depth h] at hs; simp at hs
    · rw [add_branch.eq_def, dif_neg h] at hs
      have h1 : 0 < depth := lt_of_not_le (not_or.mp h).1
      have hih : (depth - 1).toNat ≤ n := by omega
      simp only [List.mem_cons, List.mem_append] at hs
      rcases hs with rfl | hs | hs | hs
      · exact h1
      · exact ih _ _ _ _ _ _ hih s hs
      · exact ih _ _ _ _ _ _ hih s hs
      · by_cases h2 : 2 < depth
        · rw [if_pos h2] at hs; exact ih _ _ _ _ _ _ hih s hs
        · rw [if_neg h2] at hs; simp at hs

lemma mold_branches_length (M : FloatLib) :
    (mold_branches M).length ≤ 4 * ((3 ^ 5 - 1) / 2) := by
  have hb : ∀ a : ℚ, (add_branch M 256 256 (M.radians a) 110 16 5).length ≤ 121 := by
    intro a
    have h := add_branch_length_le_aux M 5 256 256 (M.radians a) 110 16 5 (by norm_num)
    simpa [branchBound] using h
  simp only [mold_branches, List.flatMap_cons, List.flatMap_nil, List.append_nil,
    List.length_append]
  have h1 := hb 30
  have h2 := hb 120
  have h3 := hb 210
  have h4 := hb 310
  omega

/-- C3: the branch generator terminates on every starting tuple: a call
with `depth ≤ 0` or `length < 15` emits nothing (so no segment is ever
emitted at depth ≤ 0 — every emitted segment has positive depth), and
the emitted list is finite with at most `(3^D - 1)/(3 - 1)` segments
for initial depth `D` (each recursive call decreases `depth` by one and
scales `length` by 0.65 or 0.5); `draw_mold`, with its 4 trunks of
depth 5, gets at most `4·(3^5 - 1)/2` segments. -/
theorem C3_branch_termination (M : FloatLib) :
    (∀ x y angle length width depth, (depth ≤ 0 ∨ length < 15) →
      add_branch M x y angle length width depth = []) ∧
    (∀ x y angle length width depth,
      ∀ s ∈ add_branch M x y angle length width depth, 0 < s.depth) ∧
    (∀ x y angle length width depth,
      (add_branch M x y angle length width depth).length ≤ (3 ^ depth.toNat - 1) / 2) ∧
    (mold_branches M).length ≤ 4 * ((3 ^ 5 - 1) / 2) := by
  refine ⟨add_branch_stop M, ?_, ?_, mold_branches_length M⟩
  · intro x y angle length width depth s hs
    exact add_branch_depth_pos M depth.toNat x y angle length width depth le_rfl s hs
  · intro x y angle length width depth
    rw [← branchBound_eq]
    exact add_branch_length_le_aux M depth.toNat x y angle length width depth le_rfl

/-- Witness for C3: a depth-0 call emits nothing; a concrete depth-1
call obeys the closed-form bound. -/
theorem C3_branch_termination_witness :
    add_branch flZero 0 0 0 10 5 0 = [] ∧
    (add_branch flZero 0 0 0 20 5 1).length ≤ (3 ^ (1 : ℤ).toNat - 1) / 2 :=
  ⟨(C3_branch_termination flZero).1 0 0 0 10 5 0 (Or.inl le_rfl),
   (C3_branch_termination flZero).2.2.1 0 0 0 20 5 1⟩

lemma randint_range (lo hi : ℤ) (r : Rng) (h : lo ≤ hi) :
    lo ≤ (randint lo hi r).1 ∧ (randint lo hi r).1 ≤ hi := by
  unfold randint
  have hn : 0 < (hi + 1 - lo).toNat := by omega
  have hm := Nat.mod_lt ((r.s * 1103515245 + 12345) % 2147483648) hn
  simp only
  omega

lemma grainPts_spec (base : RGB) :
    ∀ (n : ℕ) (r : Rng), ∀ t ∈ grainPts base r n, t.2.2.a = 60 ∧ inBounds t.1 t.2.1 := by
  intro n
  induction n with
  | zero => intro r t ht; simp [grainPts] at ht
  | succ n ih =>
    intro r t ht
    rw [grainPts] at ht
    rcases List.mem_cons.mp ht with rfl | ht
    · dsimp only
      refine ⟨rfl, ?_, ?_, ?_, ?_⟩
      · exact (randint_range 0 511 r (by norm_num)).1
      · have := (randint_range 0 511 r (by norm_num)).2; omega
      · exact (randint_range 0 511 (randint 0 511 r).2 (by norm_num)).1
      · have := (randint_range 0 511 (randint 0 511 r).2 (by norm_num)).2; omega
    · exact ih _ t ht

lemma grainPts_length (base : RGB) : ∀ (n : ℕ) (r : Rng), (grainPts base r n).length = n := by
  intro n
  induction n with
  | zero => intro r; rfl
  | succ n ih => intro r; rw [grainPts]; simp [ih]

lemma render_append (l1 l2 : List DrawOp) (c : Canvas) :
    render (l1 ++ l2) c = render l2 (render l1 c) :=
  List.foldl_append _ _ _ _

/-- Rendering point ops whose ink all has alpha 60 preserves
"this pixel has alpha 60". -/
lemma renderPoints_keeps60 (pts : List (ℤ × ℤ × Pixel))
    (hall : ∀ t ∈ pts, t.2.2.a = 60) :
    ∀ (c : Canvas) (x y : ℤ), (c x y).a = 60 →
      ((render (pts.map fun t => DrawOp.point t.1 t.2.1 t.2.2) c) x y).a = 60 := by
  induction pts with
  | nil => intro c x y h; exact h
  | cons hd tl ih =>
    intro c x y h
    simp only [List.map_cons, render, List.foldl_cons]
    apply ih (fun t ht => hall t (List.mem_cons_of_mem _ ht))
    unfold applyOp
    by_cases hc : inBounds x y ∧ (DrawOp.point hd.1 hd.2.1 hd.2.2).coversB x y
    · rw [if_pos hc]
      exact hall hd (List.mem_cons_self _ _)
    · rw [if_neg hc]; exact h

/-- After rendering the grain point ops, every listed in-bounds point
holds alpha 60, whatever the starting canvas was. -/
lemma renderPoints_mem60 (pts : List (ℤ × ℤ × Pixel))
    (hall : ∀ t ∈ pts, t.2.2.a = 60) (hbnd : ∀ t ∈ pts, inBounds t.1 t.2.1) :
    ∀ (c : Canvas), ∀ t ∈ pts,
      ((render (pts.map fun u => DrawOp.point u.1 u.2.1 u.2.2) c) t.1 t.2.1).a = 60 := by
  induction pts with
  | nil => intro c t ht; simp at ht
  | cons hd tl ih =>
    intro c t ht
    simp only [List.map_cons, render, List.foldl_cons]
    rcases List.mem_cons.mp ht with rfl | ht
    · apply renderPoints_keeps60 tl (fun u hu => hall u (List.mem_cons_of_mem _ hu))
      unfold applyOp
      rw [if_pos ⟨hbnd t (List.mem_cons_self _ _), by simp [DrawOp.coversB]⟩]
      exact hall t (List.mem_cons_self _ _)
    · exact ih (fun u hu => hall u (List.mem_cons_of_mem _ hu))
        (fun u hu => hbnd u (List.mem_cons_of_mem _ hu)) _ t ht

/-- C9: for every world, each of the 400 grain-noise points of the
empty tile is written with alpha exactly 60, replacing the pixel
rather than compositing, so the supersampled canvas handed to the
finalizer holds alpha 60 at every grain point even though the base
fill was written with alpha 255 — the canvas is not fully opaque. -/
theorem C9_grain_alpha (M : FloatLib) (w : ℕ) (theme : Theme)
    (hw : lookupWorld w WORLD_THEMES = some theme) :
    (∀ t ∈ grainPts theme.empty (seedRng (w * 1000)) 400,
      ((emptyTileCanvas M w theme) t.1 t.2.1).a = 60) ∧
    (∃ x y, inBounds x y ∧ ((emptyTileCanvas M w theme) x y).a ≠ 255) := by
  have hall : ∀ t ∈ grainPts theme.empty (seedRng (w * 1000)) 400, t.2.2.a = 60 :=
    fun t ht => (grainPts_spec theme.empty 400 _ t ht).1
  have hbnd : ∀ t ∈ grainPts theme.empty (seedRng (w * 1000)) 400, inBounds t.1 t.2.1 :=
    fun t ht => (grainPts_spec theme.empty 400 _ t ht).2
  have key : ∀ t ∈ grainPts theme.empty (seedRng (w * 1000)) 400,
      ((emptyTileCanvas M w theme) t.1 t.2.1).a = 60 := by
    intro t ht
    unfold emptyTileCanvas emptyTileOps grainOps
    rw [← List.cons_append, ← List.cons_append, render_append]
    exact renderPoints_mem60 _ hall hbnd _ t ht
  refine ⟨key, ?_⟩
  have hne : grainPts theme.empty (seedRng (w * 1000)) 400 ≠ [] := by
    intro hcon
    have := grainPts_length theme.empty 400 (seedRng (w * 1000))
    rw [hcon] at this
    simp at this
  obtain ⟨t, ht⟩ := List.exists_mem_of_ne_nil _ hne
  exact ⟨t.1, t.2.1, hbnd t ht, by rw [key t ht]; decide⟩

/-- Witness for C9: world 1, whose first grain point is (1, 166) with
ink (29, 43, 33, 60). -/
theorem C9_grain_alpha_witness :
    ((emptyTileCanvas flZero 1 ⟨"Petri Dish", ⟨26, 40, 30⟩, ⟨58, 68, 52⟩, ⟨76, 175, 80⟩⟩)
      1 166).a = 60 ∧
    (∃ x y, inBounds x y ∧
      ((emptyTileCanvas flZero 1 ⟨"Petri Dish", ⟨26, 40, 30⟩, ⟨58, 68, 52⟩, ⟨76, 175, 80⟩⟩)
        x y).a ≠ 255) :=
  ⟨(C9_grain_alpha flZero 1 ⟨"Petri Dish", ⟨26, 40, 30⟩, ⟨58, 68, 52⟩, ⟨76, 175, 80⟩⟩ rfl).1
      (1, 166, ⟨29, 43, 33, 60⟩) (by decide),
   (C9_grain_alpha flZero 1 ⟨"Petri Dish", ⟨26, 40, 30⟩, ⟨58, 68, 52⟩, ⟨76, 175, 80⟩⟩ rfl).2⟩

lemma applyOp_outside (op : DrawOp) (c : Canvas) (x y : ℤ) (h : ¬ inBounds x y) :
    applyOp op c x y = c x y := by
  unfold applyOp
  rw [if_neg (fun hc => h hc.1)]

lemma render_outside (ops : List DrawOp) (c : Canvas) (x y : ℤ) (h : ¬ inBounds x y) :
    render ops c x y = c x y := by
  induction ops generalizing c with
  | nil => rfl
  | cons op ops ih =>
    have e : render (op :: ops) c = render ops (applyOp op c) := rfl
    rw [e, ih (applyOp op c), applyOp_outside op c x y h]

lemma draw_glow_outside (c : Canvas) (cx cy radius : ℚ) (color : RGB) (alpha : ℕ)
    (x y : ℤ) (h : ¬ inBounds x y) : draw_glow c cx cy radius color alpha x y = c x y := by
  simp only [draw_glow, pasteMasked, if_neg h]

lemma renderGlow_outside (ops : List DrawOp) (c : Canvas) (cx cy radius : ℚ) (color : RGB)
    (alpha : ℕ) (x y : ℤ) (h : ¬ inBounds x y) :
    render ops (draw_glow c cx cy radius color alpha) x y = c x y := by
  rw [render_outside _ _ _ _ h, draw_glow_outside _ _ _ _ _ _ _ _ h]

lemma lookupKey_eq_some_mem {β : Type} (k : String) :
    ∀ (l : List (String × β)) (v : β), lookupKey k l = some v → v ∈ l.map Prod.snd
  | [], v => by simp [lookupKey]
  | (k', w) :: rest, v => by
    simp only [lookupKey, List.map_cons, List.mem_cons]
    by_cases h : k = k'
    · rw [if_pos h]
      intro hv
      exact Or.inl (Option.some.inj hv).symm
    · rw [if_neg h]
      intro hv
      exact Or.inr (lookupKey_eq_some_mem k rest v hv)

set_option maxRecDepth 4000 in
/-- Every drawer reachable through the dispatch table leaves
out-of-bounds pixels of a fresh canvas fully transparent. -/
lemma tabledDrawer_outside (M : FloatLib) (name : String) (drawer : Canvas → RGB → Canvas)
    (hd : lookupKey name (PATHOGEN_DRAWERS M) = some drawer) (color : RGB) (x y : ℤ)
    (h : ¬ inBounds x y) : drawer new_canvas color x y = blankPixel := by
  have hm := lookupKey_eq_some_mem name (PATHOGEN_DRAWERS M) drawer hd
  simp only [PATHOGEN_DRAWERS, List.map_cons, List.map_nil, List.mem_cons,
    List.not_mem_nil, or_false] at hm
  rcases hm with rfl | rfl | rfl | rfl | rfl | rfl | rfl | rfl | rfl <;>
    exact (renderGlow_outside _ _ _ _ _ _ _ x y h).trans rfl

lemma medicinePre_outside (M : FloatLib) (p m : String) (mc : RGB) (cv : Canvas)
    (hcv : medicinePre M p m mc = some cv) (x y : ℤ) (h : ¬ inBounds x y) :
    cv x y = blankPixel := by
  unfold medicinePre at hcv
  cases hb : lookupKey p COLORS with
  | none => rw [hb] at hcv; simp at hcv
  | some base =>
    cases hd : lookupKey p (PATHOGEN_DRAWERS M) with
    | none => rw [hb, hd] at hcv; simp at hcv
    | some drawer =>
      rw [hb, hd] at hcv
      simp only [Option.some.injEq] at hcv
      rw [← hcv, render_outside _ _ _ _ h]
      unfold alphaCompositeCanvas
      rw [if_neg h]
      exact tabledDrawer_outside M p drawer hd _ x y h

/-- C4 (amended): although some draw calls address coordinates outside
the canvas, every actual pixel write is clipped to
`[0,width) × [0,height)`: a primitive leaves every out-of-bounds pixel
unchanged, and the canvases built by the organism drawers, the
medicine compositor, and both tile generators are fully transparent
outside the canvas bounds. -/
theorem C4_writes_clipped (M : FloatLib) :
    (∀ op c x y, ¬ inBounds x y → applyOp op c x y = c x y) ∧
    (∀ name drawer color x y, lookupKey name (PATHOGEN_DRAWERS M) = some drawer →
      ¬ inBounds x y → drawer new_canvas color x y = blankPixel) ∧
    (∀ p m mc cv x y, medicinePre M p m mc = some cv → ¬ inBounds x y →
      cv x y = blankPixel) ∧
    (∀ w theme x y, ¬ inBounds x y →
      emptyTileCanvas M w theme x y = blankPixel ∧
      wallTileCanvas M w theme x y = blankPixel) := by
  refine ⟨applyOp_outside, ?_, ?_, ?_⟩
  · intro name drawer color x y hd h
    exact tabledDrawer_outside M name drawer hd color x y h
  · intro p m mc cv x y hcv h
    exact medicinePre_outside M p m mc cv hcv x y h
  · intro w theme x y h
    exact ⟨(render_outside _ _ _ _ h).trans rfl, (render_outside _ _ _ _ h).trans rfl⟩

/-- Witness for the amended C4 at a concrete out-of-bounds pixel. -/
theorem C4_writes_clipped_witness :
    applyOp (DrawOp.rect 0 0 512 512 ⟨26, 40, 30, 255⟩) new_canvas 512 300 =
      new_canvas 512 300 ∧
    emptyTileCanvas flZero 1 ⟨"Petri Dish", ⟨26, 40, 30⟩, ⟨58, 68, 52⟩, ⟨76, 175, 80⟩⟩
      512 300 = blankPixel :=
  ⟨(C4_writes_clipped flZero).1 (DrawOp.rect 0 0 512 512 ⟨26, 40, 30, 255⟩) new_canvas
      512 300 (by decide),
   ((C4_writes_clipped flZero).2.2.2 1
      ⟨"Petri Dish", ⟨26, 40, 30⟩, ⟨58, 68, 52⟩, ⟨76, 175, 80⟩⟩ 512 300 (by decide)).1⟩

/-- C4 (counterexample to the claim as stated): the base fill of every
empty tile is `d.rectangle([0, 0, SIZE, SIZE], ...)` (line 524), and
Pillow boxes are inclusive of both endpoints, so this draw call
addresses pixel (512, 300), which lies outside `[0,512) × [0,512)`. -/
theorem C4_out_of_bounds_address :
    DrawOp.rect 0 0 512 512 (px ⟨26, 40, 30⟩ 255) ∈
      emptyTileOps flZero 1 ⟨"Petri Dish", ⟨26, 40, 30⟩, ⟨58, 68, 52⟩, ⟨76, 175, 80⟩⟩ ∧
    (DrawOp.rect 0 0 512 512 (px ⟨26, 40, 30⟩ 255)).coversB 512 300 = true ∧
    ¬ inBounds 512 300 :=
  ⟨List.mem_cons_self _ _, by decide, by decide⟩

/-- C6: for every known medicine id, `generate_medicine` equals the
spec's compositor pipeline: blended color = channel-wise average of
the paired organism color and the medicine color, the matching shape
synthesizer invoked with it on a fresh transparent canvas, a flat
medicine-colored alpha-60 layer alpha-composited over the whole
canvas, then the cross icon (two overlapping rounded rectangles,
medicine-colored outline and white fill) centered on the canvas, in
exactly that order. -/
theorem C6_medicine_compositor (M : FloatLib) (med path : String) (mc oc : RGB)
    (h1 : lookupKey med MED_TO_PATH = some path) (h2 : lookupKey med MED_COLORS = some mc)
    (h3 : lookupKey path COLORS = some oc) :
    generate_medicine M path med mc = composeMedicine_spec M path oc mc := by
  have hm : med ∈ MED_TO_PATH.map Prod.fst :=
    lookupKey_isSome_mem med MED_TO_PATH (by rw [h1]; rfl)
  simp only [MED_TO_PATH, List.map_cons, List.map_nil, List.mem_cons, List.not_mem_nil,
    or_false] at hm
  rcases hm with rfl | rfl | rfl | rfl | rfl | rfl | rfl | rfl | rfl <;>
  · simp only [lookupKey, MED_TO_PATH, MED_COLORS] at h1 h2
    simp at h1 h2
    subst h1
    subst h2
    simp only [lookupKey, COLORS] at h3
    simp at h3
    subst h3
    rfl

/-- Witness for C6 at penicillin (paired with coccus). -/
theorem C6_medicine_compositor_witness :
    generate_medicine flZero "coccus" "penicillin" ⟨0, 229, 255⟩ =
      composeMedicine_spec flZero "coccus" ⟨76, 175, 80⟩ ⟨0, 229, 255⟩ :=
  C6_medicine_compositor flZero "penicillin" "coccus" ⟨0, 229, 255⟩ ⟨76, 175, 80⟩
    rfl rfl rfl

lemma render_untouched (ops : List DrawOp) (x y : ℤ)
    (h : ∀ op ∈ ops, ¬(inBounds x y ∧ op.coversB x y = true)) :
    ∀ c : Canvas, render ops c x y = c x y := by
  induction ops with
  | nil => intro c; rfl
  | cons op ops ih =>
    intro c
    have e : render (op :: ops) c = render ops (applyOp op c) := rfl
    rw [e, ih (fun o ho => h o (List.mem_cons_of_mem _ ho))]
    unfold applyOp
    rw [if_neg (h op (List.mem_cons_self _ _))]

/-- Coverage of a circle drawn in a square bounding box is exactly the
squared-distance test. -/
lemma ellipse_square_covers {cx cy r : ℚ} (hr : 0 < r) (x y : ℤ) :
    ellipseCoversB (cx - r) (cy - r) (cx + r) (cy + r) x y = true ↔
      ((x : ℚ) - cx) ^ 2 + ((y : ℚ) - cy) ^ 2 ≤ r ^ 2 := by
  unfold ellipseCoversB
  simp only [decide_eq_true_eq]
  have e1 : (cx - r + (cx + r)) / 2 = cx := by ring
  have e2 : (cy - r + (cy + r)) / 2 = cy := by ring
  have e3 : (cx + r - (cx - r)) / 2 = r := by ring
  have e4 : (cy + r - (cy - r)) / 2 = r := by ring
  rw [e1, e2, e3, e4]
  have hr2 : (0 : ℚ) < r ^ 2 := by positivity
  constructor
  · intro h
    have key : (((x : ℚ) - cx) ^ 2 + ((y : ℚ) - cy) ^ 2) * r ^ 2 ≤ r ^ 2 * r ^ 2 := by
      nlinarith [h]
    exact le_of_mul_le_mul_right key hr2
  · intro h
    nlinarith [h]

/-- The glow layer before blurring: because each of the five circles is
larger than all previous ones and drawing replaces pixels, every pixel
is either untouched or holds the ink of the fifth (largest, faintest)
circle. -/
lemma glowLayer_cases (cx cy radius : ℚ) (hr : 0 < radius) (color : RGB) (alpha : ℕ)
    (x y : ℤ) :
    render (glowOps cx cy radius color alpha) new_canvas x y = blankPixel ∨
    render (glowOps cx cy radius color alpha) new_canvas x y =
      px color (max 5 (alpha - 15 * 4)) := by
  have e : glowOps cx cy radius color alpha =
      ((List.range 4).map fun (i : ℕ) =>
        DrawOp.ellipse (cx - (radius + (i : ℚ) * 8)) (cy - (radius + (i : ℚ) * 8))
          (cx + (radius + (i : ℚ) * 8)) (cy + (radius + (i : ℚ) * 8))
          (px color (max 5 (alpha - 15 * i)))) ++
      [DrawOp.ellipse (cx - (radius + (4 : ℕ) * 8)) (cy - (radius + (4 : ℕ) * 8))
          (cx + (radius + (4 : ℕ) * 8)) (cy + (radius + (4 : ℕ) * 8))
          (px color (max 5 (alpha - 15 * 4)))] := by
    unfold glowOps
    rw [List.range_succ, List.map_append]
    rfl
  rw [e, render_append]
  by_cases hb : inBounds x y
  · by_cases h4 : ((x : ℚ) - cx) ^ 2 + ((y : ℚ) - cy) ^ 2 ≤ (radius + (4 : ℕ) * 8) ^ 2
    · right
      have hr4 : (0 : ℚ) < radius + (4 : ℕ) * 8 := by push_cast; linarith
      have hc : ellipseCoversB (cx - (radius + (4 : ℕ) * 8)) (cy - (radius + (4 : ℕ) * 8))
          (cx + (radius + (4 : ℕ) * 8)) (cy + (radius + (4 : ℕ) * 8)) x y = true :=
        (ellipse_square_covers hr4 x y).mpr h4
      show applyOp _ _ x y = _
      unfold applyOp
      rw [if_pos ⟨hb, hc⟩]
      rfl
    · left
      have huntouched : ∀ c : Canvas,
          render [DrawOp.ellipse (cx - (radius + (4 : ℕ) * 8)) (cy - (radius + (4 : ℕ) * 8))
            (cx + (radius + (4 : ℕ) * 8)) (cy + (radius + (4 : ℕ) * 8))
            (px color (max 5 (alpha - 15 * 4)))] c x y = c x y := by
        apply render_untouched
        intro op hop hcon
        rcases List.mem_singleton.mp hop with rfl
        have hr4 : (0 : ℚ) < radius + (4 : ℕ) * 8 := by push_cast; linarith
        exact h4 ((ellipse_square_covers hr4 x y).mp hcon.2)
      rw [huntouched]
      apply render_untouched
      intro op hop hcon
      obtain ⟨i, hi, rfl⟩ := List.mem_map.mp hop
      have hi4 : (i : ℚ) ≤ 4 := by
        have h' : i ≤ 4 := le_of_lt (List.mem_range.mp hi)
        exact_mod_cast h'
      have hri : (0 : ℚ) < radius + (i : ℚ) * 8 := by positivity
      have hdist := (ellipse_square_covers hri x y).mp hcon.2
      apply h4
      calc ((x : ℚ) - cx) ^ 2 + ((y : ℚ) - cy) ^ 2
          ≤ (radius + (i : ℚ) * 8) ^ 2 := hdist
        _ ≤ (radius + (4 : ℕ) * 8) ^ 2 := by
            have hle : radius + (i : ℚ) * 8 ≤ radius + (4 : ℕ) * 8 := by
              push_cast; linarith
            nlinarith [hri]
  · left
    have h1 : ∀ (l : List DrawOp) (c : Canvas), render l c x y = c x y := by
      intro l c
      exact render_untouched l x y (fun op _ hcon => hb hcon.1) c
    rw [h1, h1]
    rfl

lemma boxBlurX_bound (c : Canvas) (br bg bb ba : ℕ)
    (h : ∀ u v : ℤ, (c u v).r ≤ br ∧ (c u v).g ≤ bg ∧ (c u v).b ≤ bb ∧ (c u v).a ≤ ba) :
    ∀ x y : ℤ, ((boxBlurX c) x y).r ≤ br ∧ ((boxBlurX c) x y).g ≤ bg ∧
      ((boxBlurX c) x y).b ≤ bb ∧ ((boxBlurX c) x y).a ≤ ba := by
  have key : ∀ (g : ℤ → ℕ) (b : ℕ) (x : ℤ), (∀ u, g u ≤ b) →
      (∑ i ∈ Finset.range 25, g (x + (i : ℤ) - 12)) / 25 ≤ b := by
    intro g b x hg
    have hsum : (∑ i ∈ Finset.range 25, g (x + (i : ℤ) - 12)) ≤ 25 * b := by
      calc (∑ i ∈ Finset.range 25, g (x + (i : ℤ) - 12))
          ≤ ∑ _i ∈ Finset.range 25, b := Finset.sum_le_sum fun i _ => hg _
        _ = 25 * b := by simp [Finset.sum_const, Finset.card_range, smul_eq_mul]
    calc (∑ i ∈ Finset.range 25, g (x + (i : ℤ) - 12)) / 25 ≤ 25 * b / 25 :=
        Nat.div_le_div_right hsum
      _ = b := by omega
  intro x y
  exact ⟨key (fun u => (c u y).r) br x (fun u => (h u y).1),
    key (fun u => (c u y).g) bg x (fun u => (h u y).2.1),
    key (fun u => (c u y).b) bb x (fun u => (h u y).2.2.1),
    key (fun u => (c u y).a) ba x (fun u => (h u y).2.2.2)⟩

lemma boxBlurY_bound (c : Canvas) (br bg bb ba : ℕ)
    (h : ∀ u v : ℤ, (c u v).r ≤ br ∧ (c u v).g ≤ bg ∧ (c u v).b ≤ bb ∧ (c u v).a ≤ ba) :
    ∀ x y : ℤ, ((boxBlurY c) x y).r ≤ br ∧ ((boxBlurY c) x y).g ≤ bg ∧
      ((boxBlurY c) x y).b ≤ bb ∧ ((boxBlurY c) x y).a ≤ ba := by
  have key : ∀ (g : ℤ → ℕ) (b : ℕ) (y : ℤ), (∀ u, g u ≤ b) →
      (∑ i ∈ Finset.range 25, g (y + (i : ℤ) - 12)) / 25 ≤ b := by
    intro g b y hg
    have hsum : (∑ i ∈ Finset.range 25, g (y + (i : ℤ) - 12)) ≤ 25 * b := by
      calc (∑ i ∈ Finset.range 25, g (y + (i : ℤ) - 12))
          ≤ ∑ _i ∈ Finset.range 25, b := Finset.sum_le_sum fun i _ => hg _
        _ = 25 * b := by simp [Finset.sum_const, Finset.card_range, smul_eq_mul]
    calc (∑ i ∈ Finset.range 25, g (y + (i : ℤ) - 12)) / 25 ≤ 25 * b / 25 :=
        Nat.div_le_div_right hsum
      _ = b := by omega
  intro x y
  exact ⟨key (fun v => (c x v).r) br y (fun v => (h x v).1),
    key (fun v => (c x v).g) bg y (fun v => (h x v).2.1),
    key (fun v => (c x v).b) bb y (fun v => (h x v).2.2.1),
    key (fun v => (c x v).a) ba y (fun v => (h x v).2.2.2)⟩

lemma gaussianBlur12_bound (c : Canvas) (br bg bb ba : ℕ)
    (h : ∀ u v : ℤ, (c u v).r ≤ br ∧ (c u v).g ≤ bg ∧ (c u v).b ≤ bb ∧ (c u v).a ≤ ba) :
    ∀ x y : ℤ, ((gaussianBlur12 c) x y).r ≤ br ∧ ((gaussianBlur12 c) x y).g ≤ bg ∧
      ((gaussianBlur12 c) x y).b ≤ bb ∧ ((gaussianBlur12 c) x y).a ≤ ba :=
  boxBlurY_bound _ _ _ _ _ (boxBlurY_bound _ _ _ _ _ (boxBlurY_bound _ _ _ _ _
    (boxBlurX_bound _ _ _ _ _ (boxBlurX_bound _ _ _ _ _ (boxBlurX_bound _ _ _ _ _ h)))))

/-- With base alpha 60 (as every organism drawer passes 60 or less to
the outermost ring), the glow stack is written in replace mode, so the
fifth circle overwrites the whole disk with alpha 5; after blurring
(which cannot raise the maximum) the double alpha attenuation of the
premultiplied paste (`a·a/255` with `a ≤ 5`) rounds every contribution
to zero: the glow pass leaves a fresh transparent canvas unchanged. -/
lemma glow_noop_60 (cx cy radius : ℚ) (hr : 0 < radius) (color : RGB)
    (hcr : color.r.toNat ≤ 255) (hcg : color.g.toNat ≤ 255) (hcb : color.b.toNat ≤ 255) :
    draw_glow new_canvas cx cy radius color 60 = new_canvas := by
  have hlayer : ∀ u v : ℤ,
      ((render (glowOps cx cy radius color 60) new_canvas) u v).r ≤ 255 ∧
      ((render (glowOps cx cy radius color 60) new_canvas) u v).g ≤ 255 ∧
      ((render (glowOps cx cy radius color 60) new_canvas) u v).b ≤ 255 ∧
      ((render (glowOps cx cy radius color 60) new_canvas) u v).a ≤ 5 := by
    intro u v
    rcases glowLayer_cases cx cy radius hr color 60 u v with h | h <;> rw [h]
    · exact ⟨Nat.zero_le _, Nat.zero_le _, Nat.zero_le _, Nat.zero_le _⟩
    · exact ⟨hcr, hcg, hcb, le_rfl⟩
  have hblur := gaussianBlur12_bound _ 255 255 255 5 hlayer
  funext x y
  show pasteMasked new_canvas
      (alphaCompositeCanvas new_canvas
        (gaussianBlur12 (render (glowOps cx cy radius color 60) new_canvas)))
      (gaussianBlur12 (render (glowOps cx cy radius color 60) new_canvas)) x y =
    new_canvas x y
  unfold pasteMasked
  by_cases hb : inBounds x y
  · rw [if_pos hb]
    obtain ⟨hR, hG, hB, hA⟩ := hblur x y
    unfold alphaCompositeCanvas
    rw [if_pos hb]
    set q := gaussianBlur12 (render (glowOps cx cy radius color 60) new_canvas) x y with hq
    have h1r : (q.r * q.a + (new_canvas x y).r * (255 - q.a)) / 255 ≤ 5 := by
      have : q.r * q.a ≤ 1275 := Nat.mul_le_mul hR hA
      show (q.r * q.a + blankPixel.r * (255 - q.a)) / 255 ≤ 5
      simp only [blankPixel]
      omega
    have h1g : (q.g * q.a + (new_canvas x y).g * (255 - q.a)) / 255 ≤ 5 := by
      have : q.g * q.a ≤ 1275 := Nat.mul_le_mul hG hA
      show (q.g * q.a + blankPixel.g * (255 - q.a)) / 255 ≤ 5
      simp only [blankPixel]
      omega
    have h1b : (q.b * q.a + (new_canvas x y).b * (255 - q.a)) / 255 ≤ 5 := by
      have : q.b * q.a ≤ 1275 := Nat.mul_le_mul hB hA
      show (q.b * q.a + blankPixel.b * (255 - q.a)) / 255 ≤ 5
      simp only [blankPixel]
      omega
    have h1a : q.a + (new_canvas x y).a * (255 - q.a) / 255 ≤ 5 := by
      show q.a + blankPixel.a * (255 - q.a) / 255 ≤ 5
      simp only [blankPixel]
      omega
    refine Pixel.ext ?_ ?_ ?_ ?_
    · show (blankPixel.r * (255 - q.a) + (overPix q blankPixel).r * q.a) / 255 = blankPixel.r
      have h2 : (overPix q blankPixel).r * q.a ≤ 25 :=
        Nat.mul_le_mul (by exact h1r) hA
      simp only [blankPixel] at h2 ⊢
      omega
    · show (blankPixel.g * (255 - q.a) + (overPix q blankPixel).g * q.a) / 255 = blankPixel.g
      have h2 : (overPix q blankPixel).g * q.a ≤ 25 :=
        Nat.mul_le_mul (by exact h1g) hA
      simp only [blankPixel] at h2 ⊢
      omega
    · show (blankPixel.b * (255 - q.a) + (overPix q blankPixel).b * q.a) / 255 = blankPixel.b
      have h2 : (overPix q blankPixel).b * q.a ≤ 25 :=
        Nat.mul_le_mul (by exact h1b) hA
      simp only [blankPixel] at h2 ⊢
      omega
    · show (blankPixel.a * (255 - q.a) + (overPix q blankPixel).a * q.a) / 255 = blankPixel.a
      have h2 : (overPix q blankPixel).a * q.a ≤ 25 :=
        Nat.mul_le_mul (by exact h1a) hA
      simp only [blankPixel] at h2 ⊢
      omega
  · rw [if_neg hb]

lemma crossOps_alpha (mc : RGB) : ∀ op ∈ medicineCrossOps mc, 60 ≤ op.pix.a := by
  intro op hop
  simp only [medicineCrossOps, List.mem_cons, List.not_mem_nil, or_false] at hop
  rcases hop with rfl | rfl | rfl | rfl <;> norm_num [DrawOp.pix, px]

lemma render_alpha_ge (ops : List DrawOp) (n : ℕ) (hops : ∀ op ∈ ops, n ≤ op.pix.a) :
    ∀ (c : Canvas) (x y : ℤ), n ≤ (c x y).a → n ≤ ((render ops c) x y).a := by
  induction ops with
  | nil => intro c x y h; exact h
  | cons op ops ih =>
    intro c x y h
    have e : render (op :: ops) c = render ops (applyOp op c) := rfl
    rw [e]
    apply ih (fun o ho => hops o (List.mem_cons_of_mem _ ho))
    unfold applyOp
    split
    · exact hops op (List.mem_cons_self _ _)
    · exact h

/-- C10: once the flat medicine tint (alpha 60) has been composited,
every in-bounds pixel of the medicine canvas has alpha at least 60 —
both immediately after the tint (for any drawer output) and on the
canvas handed to the finalizer (the cross only writes alpha ≥ 60) — so
no pixel of a medicine sprite canvas is fully transparent; by
contrast, a background pixel of the coccus organism sprite (the corner
(0,0)) keeps alpha 0. -/
theorem C10_medicine_opacity (M : FloatLib) (path med : String) (mc : RGB) (cv : Canvas)
    (hcv : medicinePre M path med mc = some cv) (x y : ℤ) (hxy : inBounds x y) :
    (∀ img : Canvas, 60 ≤ ((alphaCompositeCanvas img (fun _ _ => px mc 60)) x y).a) ∧
    60 ≤ (cv x y).a ∧
    (draw_coccus new_canvas ⟨76, 175, 80⟩ 0 0).a = 0 := by
  have htint : ∀ img : Canvas,
      60 ≤ ((alphaCompositeCanvas img (fun _ _ => px mc 60)) x y).a := by
    intro img
    unfold alphaCompositeCanvas
    rw [if_pos hxy]
    show 60 ≤ (overPix (px mc 60) (img x y)).a
    exact Nat.le_add_right _ _
  refine ⟨htint, ?_, ?_⟩
  · unfold medicinePre at hcv
    cases hb : lookupKey path COLORS with
    | none => rw [hb] at hcv; simp at hcv
    | some base =>
      cases hd : lookupKey path (PATHOGEN_DRAWERS M) with
      | none => rw [hb, hd] at hcv; simp at hcv
      | some drawer =>
        rw [hb, hd] at hcv
        simp only [Option.some.injEq] at hcv
        rw [← hcv]
        apply render_alpha_ge _ 60 (crossOps_alpha mc)
        exact htint _
  · have hall : ∀ op ∈ coccusOps ⟨76, 175, 80⟩, ¬(inBounds 0 0 ∧ op.coversB 0 0 = true) := by
      have hf : ∀ op ∈ coccusOps ⟨76, 175, 80⟩, op.coversB 0 0 = false := by
        intro op hop
        simp only [coccusOps, coccusPositions, List.flatMap_cons, List.flatMap_nil,
          List.cons_append, List.nil_append, List.mem_cons, List.not_mem_nil, or_false] at hop
        rcases hop with rfl | rfl | rfl | rfl | rfl | rfl | rfl | rfl | rfl | rfl | rfl | rfl |
          rfl | rfl | rfl <;>
        · simp only [DrawOp.coversB, ellipseCoversB, decide_eq_false_iff_not]
          norm_num
      intro op hop hcon
      rw [hf op hop] at hcon
      exact Bool.false_ne_true hcon.2
    unfold draw_coccus
    rw [glow_noop_60 256 256 60 (by norm_num) ⟨76, 175, 80⟩ (by decide) (by decide) (by decide),
      render_untouched _ 0 0 hall new_canvas]
    rfl

/-- Witness for C10: penicillin over coccus, pixel (10, 20). -/
theorem C10_medicine_opacity_witness :
    (∀ img : Canvas,
      60 ≤ ((alphaCompositeCanvas img (fun _ _ => px ⟨0, 229, 255⟩ 60)) 10 20).a) ∧
    60 ≤ ((render (medicineCrossOps ⟨0, 229, 255⟩)
      (alphaCompositeCanvas (draw_coccus new_canvas ⟨38, 202, 167⟩)
        (fun _ _ => px ⟨0, 229, 255⟩ 60))) 10 20).a ∧
    (draw_coccus new_canvas ⟨76, 175, 80⟩ 0 0).a = 0 :=
  C10_medicine_opacity flZero "coccus" "penicillin" ⟨0, 229, 255⟩ _ rfl 10 20 (by decide)

